import Mathlib

/-!
Verification of the content-retrieval subsystem of the faithup-discord-bot
repository: the sliding-window rate limiter (`src/rate_limiter.py`), the
OAuth2 authenticator (`src/youversion/auth.py`) and the YouVersion content
client with its verse-of-the-day cache and verse-text extractor
(`src/youversion/client.py`).

The Python code is embedded shallowly:

* machine floats holding timestamps and durations are modelled as `ℚ`;
* Python exceptions are modelled by `Except PyError`;
* `None`-able values are modelled by `Option`;
* coroutine suspension (`await asyncio.sleep(t)`) is modelled by advancing
  an explicit clock argument by exactly `t`; each operation takes the
  current reading of the clock (`time.monotonic()` / `time.time()`) as an
  explicit argument and, where the operation can suspend, returns the
  clock reading at which it completes;
* network I/O is modelled by oracle arguments giving the settled outcome
  of each HTTP request (`Except String resp`, where `.error` carries the
  text of a transport failure, i.e. an `httpx.RequestError`, and `.ok`
  carries the status code and parsed body).
-/

/-- Python exception values, distinguished by class, carrying `str(e)`. -/
inductive PyError where
  | valueError (msg : String)
  | rateLimitExceeded (msg : String)
  | nameError (msg : String)
  | keyError (key : String)
  | indexError (msg : String)
  | typeError (msg : String)
deriving Repr, DecidableEq

/-- The text Python would render for the exception (`str(e)`), as used when
an exception is interpolated into another message. -/
def PyError.message : PyError → String
  | .valueError m => m
  | .rateLimitExceeded m => m
  | .nameError m => m
  | .keyError k => k
  | .indexError m => m
  | .typeError m => m

/-! ## Rate limiter (`src/rate_limiter.py`) -/

/-- State of a `RateLimiter` (`src/rate_limiter.py` lines 23-37):
`max_calls` and `period` as validated by `__init__`, and the deque
`_calls` of recorded call timestamps, oldest first. -/
structure RateLimiter where
  max_calls : ℤ
  period : ℚ
  calls : List ℚ
deriving Repr, DecidableEq

/-- `RateLimiter.__init__` (lines 23-37): rejects `max_calls <= 0` and
`period <= 0` with `ValueError`, otherwise starts with an empty deque. -/
def RateLimiter.init (max_calls : ℤ) (period : ℚ) : Except PyError RateLimiter :=
  if max_calls ≤ 0 then .error (.valueError "max_calls must be positive")
  else if period ≤ 0 then .error (.valueError "period must be positive")
  else .ok { max_calls := max_calls, period := period, calls := [] }

/-- The pruning loop `while self._calls and self._calls[0] <= now - self.period:
self._calls.popleft()` (lines 44-45, 54-55, 70-71, 87-88): removes the
longest prefix of timestamps `t` with `t ≤ now - period`. -/
def pruneCalls (period now : ℚ) (calls : List ℚ) : List ℚ :=
  calls.dropWhile (fun t => decide (t ≤ now - period))

/-- The clock reading observed at line 53 after `sleep_time = oldest + period
- now` has been computed and `await asyncio.sleep(sleep_time)` has run when
`sleep_time > 0` (lines 49-53); the sleep is modelled as advancing the clock
by exactly `sleep_time`. -/
def wakeTime (oldest period now : ℚ) : ℚ :=
  if oldest + period - now > 0 then now + (oldest + period - now) else now

/-- `RateLimiter.acquire` (lines 39-58), as a function of the state and the
current clock reading `now`. Prunes expired timestamps; if `max_calls` or
more remain, sleeps until the oldest one leaves the window, re-prunes at the
wake-up reading, and appends that reading; otherwise appends `now`. Returns
the new state and the clock reading at which the call completes. The `[]`
branch of the inner match corresponds to the `self._calls[0]` access, which
cannot be reached from a validly constructed limiter (`0 < max_calls`). -/
def RateLimiter.acquire (rl : RateLimiter) (now : ℚ) : RateLimiter × ℚ :=
  if ((pruneCalls rl.period now rl.calls).length : ℤ) ≥ rl.max_calls then
    match pruneCalls rl.period now rl.calls with
    | [] => ({ rl with calls := [now] }, now)
    | oldest :: rest =>
      ({ rl with calls :=
            pruneCalls rl.period (wakeTime oldest rl.period now) (oldest :: rest)
              ++ [wakeTime oldest rl.period now] },
        wakeTime oldest rl.period now)
  else
    ({ rl with calls := pruneCalls rl.period now rl.calls ++ [now] }, now)

/-- `RateLimiter.reset` (lines 60-63): clears the deque. -/
def RateLimiter.reset (rl : RateLimiter) : RateLimiter :=
  { rl with calls := [] }

/-- `RateLimiter.get_remaining_calls` (lines 65-72): prunes expired entries
(in place, via `popleft`) and returns `max_calls - len(self._calls)`.
Returns the reported number together with the state left behind. -/
def RateLimiter.get_remaining_calls (rl : RateLimiter) (now : ℚ) : ℤ × RateLimiter :=
  ((rl.max_calls - (pruneCalls rl.period now rl.calls).length : ℤ),
    { rl with calls := pruneCalls rl.period now rl.calls })

/-- `NonBlockingRateLimiter.acquire` (lines 83-95): prunes, then raises
`RateLimitExceeded` if the window is full, else records the call. It never
sleeps, so the call always completes at `now`. -/
def NonBlockingRateLimiter.acquire (rl : RateLimiter) (now : ℚ) :
    Except PyError RateLimiter :=
  if ((pruneCalls rl.period now rl.calls).length : ℤ) ≥ rl.max_calls then
    .error (.rateLimitExceeded
      s!"Rate limit exceeded: {rl.max_calls} calls per {rl.period} seconds")
  else
    .ok { rl with calls := pruneCalls rl.period now rl.calls ++ [now] }

/-- `n` consecutive `RateLimiter.acquire` calls, each issued at clock
reading `now` (back-to-back calls within the same instant). -/
def acquireRepeat (rl : RateLimiter) (now : ℚ) : Nat → RateLimiter
  | 0 => rl
  | n + 1 => acquireRepeat (rl.acquire now).1 now n

/-- `n` consecutive `NonBlockingRateLimiter.acquire` calls at clock reading
`now`; fails as soon as one of them raises. -/
def nbAcquireRepeat (rl : RateLimiter) (now : ℚ) : Nat → Except PyError RateLimiter
  | 0 => .ok rl
  | n + 1 =>
    match NonBlockingRateLimiter.acquire rl now with
    | .ok rl2 => nbAcquireRepeat rl2 now n
    | .error e => .error e

/-- Limiter states reachable through the public interface: construction via
`__init__`, then any interleaving of `acquire` (blocking or non-blocking),
`reset` and `get_remaining_calls`, at arbitrary clock readings. -/
inductive RateLimiter.Reachable : RateLimiter → Prop
  | init (max_calls : ℤ) (period : ℚ) (rl : RateLimiter)
      (h : RateLimiter.init max_calls period = .ok rl) : RateLimiter.Reachable rl
  | acquire (rl : RateLimiter) (now : ℚ) (h : RateLimiter.Reachable rl) :
      RateLimiter.Reachable (rl.acquire now).1
  | nbAcquire (rl rl2 : RateLimiter) (now : ℚ) (h : RateLimiter.Reachable rl)
      (h2 : NonBlockingRateLimiter.acquire rl now = .ok rl2) :
      RateLimiter.Reachable rl2
  | reset (rl : RateLimiter) (h : RateLimiter.Reachable rl) :
      RateLimiter.Reachable rl.reset
  | remaining (rl : RateLimiter) (now : ℚ) (h : RateLimiter.Reachable rl) :
      RateLimiter.Reachable (rl.get_remaining_calls now).2

/-- Invariant maintained by every reachable limiter state. -/
def RateLimiter.valid (rl : RateLimiter) : Prop :=
  0 < rl.max_calls ∧ 0 < rl.period ∧ (rl.calls.length : ℤ) ≤ rl.max_calls

/-- Worker for `pySplitDot`, accumulating the current field reversed. -/
def splitDotAux : List Char → List Char → List (List Char)
  | [], acc => [acc.reverse]
  | c :: cs, acc =>
    if c = '.' then acc.reverse :: splitDotAux cs []
    else splitDotAux cs (c :: acc)

/-- Python `str.split(".")` (as used at client.py lines 139, 295 and 404):
splits on every dot, keeping empty fields, with `""` mapping to `[""]`. -/
def pySplitDot (s : String) : List String :=
  (splitDotAux s.toList []).map String.mk

/-! ## Authenticator (`src/youversion/auth.py`) -/

/-- Python truthiness of an optional string: `None` and `""` are falsy. -/
def pyTruthyStr : Option String → Bool
  | none => false
  | some s => !s.isEmpty

/-- Python truthiness of an optional float: `None` and `0.0` are falsy. -/
def pyTruthyQ : Option ℚ → Bool
  | none => false
  | some q => decide (q ≠ 0)

/-- State of a `YouVersionAuthenticator` (`src/youversion/auth.py` lines
36-48): the credentials read from the environment at construction and the
mutable `_access_token` / `_token_expiry` / `_user_id` fields. -/
structure YouVersionAuthenticator where
  username : String
  password : String
  access_token : Option String
  token_expiry : Option ℚ
  user_id : Option String
deriving Repr, DecidableEq

/-- `YouVersionAuthenticator.__init__` (lines 36-48): reads
`YOUVERSION_USERNAME` / `YOUVERSION_PASSWORD` (passed here as the two
`Option String` arguments, `none` meaning the variable is unset) and raises
`ValueError` when either is falsy (`not self.username or not
self.password`, line 44: absent or empty). -/
def YouVersionAuthenticator.init (username password : Option String) :
    Except PyError YouVersionAuthenticator :=
  if !pyTruthyStr username || !pyTruthyStr password then
    .error (.valueError
      "YOUVERSION_USERNAME and YOUVERSION_PASSWORD environment variables must be set. Create a .env file with these values.")
  else
    .ok { username := username.getD "", password := password.getD "",
          access_token := none, token_expiry := none, user_id := none }

/-- `YouVersionAuthenticator._is_token_valid` (lines 64-74): false when
`_access_token` or `_token_expiry` is falsy, else `time.time() <
self._token_expiry - 60` (the 60-second safety buffer). -/
def YouVersionAuthenticator.is_token_valid (a : YouVersionAuthenticator)
    (now : ℚ) : Bool :=
  if !pyTruthyStr a.access_token || !pyTruthyQ a.token_expiry then false
  else decide (now < a.token_expiry.getD 0 - 60)

/-- Status and parsed body of the token-endpoint POST performed by
`_authenticate`: `access_token` is `token_data["access_token"]` (a missing
key models the `KeyError` Python would raise at line 106), `expires_in` is
`token_data.get("expires_in", 3600)` before the default is applied. -/
structure TokenResponse where
  status_code : Nat
  text : String
  access_token : Option String
  expires_in : Option ℚ
deriving Repr, DecidableEq

/-- `YouVersionAuthenticator._authenticate` (lines 76-118): wraps a
transport failure into `ValueError`, rejects a non-200 status with
`ValueError`, otherwise stores the token, sets the absolute expiry to
`now + expires_in` with `expires_in` defaulting to 3600 when the server
omits it (lines 108-110), and runs the best-effort `_extract_user_info`
(lines 120-150), modelled by the oracle `extract_user` mapping the token
and the previous `_user_id` to the new `_user_id` (decoding failures leave
the field unchanged, which the oracle can express). -/
def YouVersionAuthenticator.authenticate (a : YouVersionAuthenticator)
    (now : ℚ) (resp : Except String TokenResponse)
    (extract_user : String → Option String → Option String) :
    Except PyError (String × YouVersionAuthenticator) :=
  match resp with
  | .error e => .error (.valueError s!"Authentication request failed: {e}")
  | .ok r =>
    if r.status_code ≠ 200 then
      .error (.valueError s!"Authentication failed: {r.status_code} - {r.text}")
    else
      match r.access_token with
      | none => .error (.keyError "access_token")
      | some tok =>
        .ok (tok, { a with
          access_token := some tok,
          token_expiry := some (now + r.expires_in.getD 3600),
          user_id := extract_user tok a.user_id })

/-- `YouVersionAuthenticator.get_access_token` (lines 50-62): returns the
stored token when `_is_token_valid`, else refreshes via `_authenticate`.
The third component records whether the network (the token POST) was used. -/
def YouVersionAuthenticator.get_access_token (a : YouVersionAuthenticator)
    (now : ℚ) (resp : Except String TokenResponse)
    (extract_user : String → Option String → Option String) :
    Except PyError (String × YouVersionAuthenticator × Bool) :=
  if a.is_token_valid now then
    .ok (a.access_token.getD "", a, false)
  else
    match a.authenticate now resp extract_user with
    | .ok (t, a2) => .ok (t, a2, true)
    | .error e => .error e

/-! ## Content client (`src/youversion/client.py`) -/

/-- Placeholder for a successfully constructed `YouVersionClient`; see
`YouVersionClient.init` for why construction never produces one. -/
structure YouVersionClient where
  authenticator : YouVersionAuthenticator
deriving Repr, DecidableEq

/-- `YouVersionClient.__init__` (`src/youversion/client.py` lines 44-55).
Line 46 builds the authenticator (which validates the credentials). Line 47
then runs `self._client = get_async_client()`; but
`src/async_http_client.py` line 157 binds `get_async_client =
async_http_client.client`, and `client` is a `@property` (line 55 there),
so `get_async_client` is the `httpx.AsyncClient` instance itself, not a
function — `httpx.AsyncClient` defines no `__call__`, so the call raises
`TypeError` (message: the AsyncClient object is not callable, rendered
here without the quote marks Python puts around the class name) right
after a successful credential check, and construction never succeeds. The
later line 53 (`get_limiter_from_env`, a name the module never imports,
which would raise `NameError`) is unreachable dead code. -/
def YouVersionClient.init (username password : Option String) :
    Except PyError YouVersionClient :=
  match YouVersionAuthenticator.init username password with
  | .error e => .error e
  | .ok _auth => .error (.typeError "AsyncClient object is not callable")

/-- One entry of the `votd` array in the envelope response:
`verse.get("day")`, `verse.get("usfm", [])` (a missing key yields the empty
list) and `verse.get("image_id")`. -/
structure VotdEntry where
  day : Option ℤ
  usfm : List String
  image_id : Option String
deriving Repr, DecidableEq

/-- Status and parsed body of the VOTD envelope GET: `votd` is
`data.get("votd", [])`. -/
structure VotdResponse where
  status_code : Nat
  votd : List VotdEntry
deriving Repr, DecidableEq

/-- `YouVersionClient.get_verse_of_the_day` (lines 57-117) with `day`
already resolved (when the argument is omitted, lines 71-72 resolve it to
the current day of year). `resp` is the settled outcome of the envelope
GET; the rate-limiter acquire at line 84 only delays the request and is
modelled by the separate `RateLimiter`. A transport failure
(`httpx.RequestError`) and a non-200 status both become `ValueError`;
otherwise the entry whose `day` equals the request is returned, falling
back to the first entry when none matches but some exist, and failing with
the not-found `ValueError` when the array is empty. -/
def YouVersionClient.get_verse_of_the_day (day : ℤ)
    (resp : Except String VotdResponse) : Except PyError VotdEntry :=
  match resp with
  | .error e => .error (.valueError s!"VOTD API request failed: {e}")
  | .ok r =>
    if r.status_code ≠ 200 then
      .error (.valueError s!"VOTD API request failed: {r.status_code}")
    else
      match r.votd.find? (fun v => decide (v.day = some day)) with
      | some v => .ok v
      | none =>
        match r.votd with
        | v0 :: _ => .ok v0
        | [] => .error (.valueError s!"No verse of the day found for day {day}")

/-- The innermost level of the chapter-endpoint body. -/
structure ChapterResponseData where
  content : Option String
deriving Repr, DecidableEq

/-- The middle level of the chapter-endpoint body. -/
structure ChapterResponse where
  data : Option ChapterResponseData
deriving Repr, DecidableEq

/-- Parsed body of the chapter endpoint:
`{response: {data: {content: "<markup>"}}}`, each level possibly missing. -/
structure ChapterData where
  response : Option ChapterResponse
deriving Repr, DecidableEq

/-- `chapter_data.get("response", {}).get("data", {}).get("content", "")`
(lines 307-310): the markup string, with `""` when any level is absent. -/
def chapterContent (cd : ChapterData) : String :=
  match cd.response with
  | none => ""
  | some r =>
    match r.data with
    | none => ""
    | some d => d.content.getD ""

/-- The chapter-reference derivation of `get_verse_text` (lines 137-143):
`"JHN.10.11"` becomes `"JHN.10"`; a reference with fewer than two
dot-separated parts passes through unchanged. -/
def chapter_reference (usfm_reference : String) : String :=
  match pySplitDot usfm_reference with
  | b :: c :: _ => b ++ "." ++ c
  | _ => usfm_reference

/-- Status, text and parsed body of one chapter GET. -/
structure ChapterHttpResponse where
  status_code : Nat
  text : String
  body : ChapterData
deriving Repr, DecidableEq

/-- `YouVersionClient.get_verse_text` (lines 119-173): fetches the chapter
markup for the reference's chapter. `net` maps the derived chapter
reference to the settled outcome of the GET (the auth-header fetch at line
135 and the limiter acquire at line 151 are modelled separately; an
authentication failure surfaces as a failed fetch). Transport failure and
non-200 status both become `ValueError`; on 200 the parsed body is
returned. -/
def YouVersionClient.get_verse_text (net : String → Except String ChapterHttpResponse)
    (usfm_reference : String) : Except PyError ChapterData :=
  match net (chapter_reference usfm_reference) with
  | .error e => .error (.valueError s!"Bible chapter API request failed: {e}")
  | .ok r =>
    if r.status_code ≠ 200 then
      .error (.valueError s!"Bible chapter API request failed: {r.status_code}")
    else .ok r.body

/-- The error-collection loop of `get_verse_texts` (lines 196-209) over the
list produced by `asyncio.gather(*tasks, return_exceptions=True)`, which
settles to the per-task results in task order (the order the tasks were
created in, i.e. input order) regardless of the order in which the network
responses arrive. The loop walks the results in that order; at the first
exception it raises `ValueError` naming the corresponding reference, so no
partial list escapes. -/
def gatherLoop : List (String × Except PyError ChapterData) →
    Except PyError (List ChapterData)
  | [] => .ok []
  | (r, .error e) :: _ =>
    .error (.valueError s!"Failed to fetch verse {r}: {e.message}")
  | (_, .ok d) :: rest =>
    match gatherLoop rest with
    | .ok l => .ok (d :: l)
    | .error e => .error e

/-- `YouVersionClient.get_verse_texts` (lines 175-209): fan-out fetch of
`get_verse_text` for every reference, with `fetchOne` the settled outcome
of each per-reference task (in the orchestration it is
`YouVersionClient.get_verse_text net`). -/
def YouVersionClient.get_verse_texts (fetchOne : String → Except PyError ChapterData)
    (usfm_references : List String) : Except PyError (List ChapterData) :=
  gatherLoop (usfm_references.map (fun r => (r, fetchOne r)))

/-- A chapter body whose markup is the given string (used in concrete
instantiations). -/
def cdWith (s : String) : ChapterData := ⟨some ⟨some ⟨some s⟩⟩⟩

/-- Concrete per-reference fetch outcome where every fetch succeeds. -/
def demoFetchOk : String → Except PyError ChapterData :=
  fun r => .ok (cdWith r)

/-- Concrete per-reference fetch outcome where fetching `"B"` fails. -/
def demoFetchFail : String → Except PyError ChapterData :=
  fun r => if r = "B" then .error (.valueError "boom") else .ok (cdWith r)

/-- Concrete `_extract_user_info` oracle: decoding fails, the field is left
unchanged. -/
def demoExtractUser : String → Option String → Option String :=
  fun _ u => u

/-! ## Verse-text extraction (`src/youversion/client.py` lines 17-32, 303-366)

The module compiles six regex patterns and applies them with `finditer`,
`findall` and `sub`. Here each pattern is modelled by a character-list
scanner with Python `re` leftmost, non-overlapping semantics; the doc
comment of each scanner argues the equivalence with the pattern. The
recursions take a fuel argument; every recursive call consumes at least one
character of the input, so fuel `length + 1` (used by all wrappers) never
runs out. -/

/-- Leftmost occurrence of the literal `pat` in `s`: the text strictly
before the occurrence and the text right after it, or `none` when `pat`
does not occur. -/
def splitFirst (pat : List Char) : List Char → Option (List Char × List Char)
  | [] => if pat.isEmpty then some ([], []) else none
  | c :: cs =>
    if pat.isPrefixOf (c :: cs) then some ([], (c :: cs).drop pat.length)
    else
      match splitFirst pat cs with
      | some (pre, post) => some (c :: pre, post)
      | none => none

/-- The maximal leading run of decimal digits and the remainder. -/
def takeDigits : List Char → List Char × List Char
  | [] => ([], [])
  | c :: cs =>
    if c.isDigit then
      match takeDigits cs with
      | (ds, rest) => (c :: ds, rest)
    else ([], c :: cs)

/-- The number denoted by a run of decimal digits. -/
def digitsToNat (ds : List Char) : Nat :=
  ds.foldl (fun n c => n * 10 + (c.toNat - 48)) 0

/-- Drops everything up to and including the first `>`; `none` when no `>`
remains. -/
def dropThroughGt : List Char → Option (List Char)
  | [] => none
  | c :: cs => if c = '>' then some cs else dropThroughGt cs

/-- After the literal `<span class="verse v`, matches `(\d+)"[^>]*>` (the
common prefix of `VERSE_SPAN_PATTERN` and `VERSE_SPAN_FALLBACK_PATTERN`):
one or more digits, a double quote, then everything up to and including the
first `>`. The greedy `\d+` followed by `"` needs no backtracking: a
shorter digit split leaves a digit, never `"`, as the next character; and
`[^>]*>` matches exactly up to the first `>`. -/
def parseVerseOpen (s : List Char) : Option (Nat × List Char) :=
  match takeDigits s with
  | ([], _) => none
  | (ds, r1) =>
    match r1 with
    | '"' :: r2 =>
      match dropThroughGt r2 with
      | some r3 => some (digitsToNat ds, r3)
      | none => none
    | _ => none

/-- The literal head of `VERSE_SPAN_PATTERN` and
`VERSE_SPAN_FALLBACK_PATTERN`. -/
def versePat : List Char := "<span class=\"verse v".toList

/-- The literal opening of a content sub-span (`CONTENT_PATTERN` and the
tail of `LABEL_CONTENT_PATTERN`). -/
def contentOpenPat : List Char := "<span class=\"content\">".toList

/-- The literal closing-span tag. -/
def closeSpanPat : List Char := "</span>".toList

/-- The literal opening of a label sub-span (`LABEL_CONTENT_PATTERN`). -/
def labelOpenPat : List Char := "<span class=\"label\">".toList

/-- `VERSE_SPAN_PATTERN.finditer`: the pattern is
`<span class="verse v(\d+)"[^>]*>(.*?)(?=<span class="verse v|\Z)` with
DOTALL. Each match starts at an occurrence of the literal head; the
non-greedy capture with the lookahead runs to the next occurrence of the
head or the end of input, and the lookahead is zero-width, so iteration
resumes exactly at that next occurrence. When the opening-tag tail fails to
parse at an occurrence, the engine advances the search by one character. -/
def findVerseSpans : Nat → List Char → List (Nat × List Char)
  | 0, _ => []
  | fuel + 1, s =>
    match splitFirst versePat s with
    | none => []
    | some (pre, rest) =>
      match parseVerseOpen rest with
      | some (n, afterOpen) =>
        match splitFirst versePat afterOpen with
        | some (content, _) =>
          (n, content) :: findVerseSpans fuel (afterOpen.drop content.length)
        | none => [(n, afterOpen)]
      | none => findVerseSpans fuel (s.drop (pre.length + 1))

/-- All `VERSE_SPAN_PATTERN` matches of `s`, as (verse number, raw body). -/
def verseSpanMatches (s : List Char) : List (Nat × List Char) :=
  findVerseSpans (s.length + 1) s

/-- `CONTENT_PATTERN.findall`: the pattern is
`<span class="content">(.*?)</span>` with DOTALL. Each match takes the
first `</span>` after an occurrence of the opening literal; when no
`</span>` follows the first remaining opening, none follows any later one
(they lie further right), so there is no further match at all. -/
def findContentSpans : Nat → List Char → List (List Char)
  | 0, _ => []
  | fuel + 1, s =>
    match splitFirst contentOpenPat s with
    | none => []
    | some (_, rest) =>
      match splitFirst closeSpanPat rest with
      | none => []
      | some (content, rest2) => content :: findContentSpans fuel rest2

/-- All `CONTENT_PATTERN` captures of `s`. -/
def contentFindall (s : List Char) : List (List Char) :=
  findContentSpans (s.length + 1) s

/-- `LABEL_CONTENT_PATTERN.finditer`: the pattern is
`<span class="label">(\d+)</span>.*?<span class="content">(.*?)</span>`
with DOTALL. A match starts at an occurrence of the label-open literal;
`(\d+)</span>` is the maximal digit run followed by the closing tag (a
shorter split would leave a digit where `<` is required); the non-greedy
gap reaches the first content-open after the label and the capture the
first `</span>` after that. When the content-open or its `</span>` is
missing, every later candidate start sees a suffix of the same text and
fails too, so iteration ends; when the digit-run or `</span>` directly
after the label fails, the engine advances the search by one character. -/
def findLabelContent : Nat → List Char → List (Nat × List Char)
  | 0, _ => []
  | fuel + 1, s =>
    match splitFirst labelOpenPat s with
    | none => []
    | some (pre, rest) =>
      match takeDigits rest with
      | ([], _) => findLabelContent fuel (s.drop (pre.length + 1))
      | (ds, r1) =>
        if closeSpanPat.isPrefixOf r1 then
          match splitFirst contentOpenPat (r1.drop closeSpanPat.length) with
          | none => []
          | some (_, r3) =>
            match splitFirst closeSpanPat r3 with
            | none => []
            | some (content, rest2) =>
              (digitsToNat ds, content) :: findLabelContent fuel rest2
        else findLabelContent fuel (s.drop (pre.length + 1))

/-- All `LABEL_CONTENT_PATTERN` matches of `s`. -/
def labelContentMatches (s : List Char) : List (Nat × List Char) :=
  findLabelContent (s.length + 1) s

/-- `VERSE_SPAN_FALLBACK_PATTERN.finditer`: the pattern is
`<span class="verse v(\d+)"[^>]*>(.*?)</span>` with DOTALL: the capture
runs to the first `</span>` after the opening tag (non-scoped). When no
`</span>` follows, later candidates (further right) have none either. -/
def findVerseFallback : Nat → List Char → List (Nat × List Char)
  | 0, _ => []
  | fuel + 1, s =>
    match splitFirst versePat s with
    | none => []
    | some (pre, rest) =>
      match parseVerseOpen rest with
      | some (n, afterOpen) =>
        match splitFirst closeSpanPat afterOpen with
        | none => []
        | some (content, rest2) => (n, content) :: findVerseFallback fuel rest2
      | none => findVerseFallback fuel (s.drop (pre.length + 1))

/-- All `VERSE_SPAN_FALLBACK_PATTERN` matches of `s`. -/
def verseFallbackMatches (s : List Char) : List (Nat × List Char) :=
  findVerseFallback (s.length + 1) s

/-- Split at the first `>`: the characters before it and the rest after it. -/
def splitAtGt : List Char → Option (List Char × List Char)
  | [] => none
  | c :: cs =>
    if c = '>' then some ([], cs)
    else
      match splitAtGt cs with
      | some (a, b) => some (c :: a, b)
      | none => none

/-- `HTML_TAG_PATTERN.sub('', .)` with `<[^>]+>`: from each `<`, the
characters up to the first `>` are all non-`>`, so when at least one such
character exists the whole tag (through that `>`) is removed; `<>` and an
unclosed `<` admit no match starting there and the `<` is kept. -/
def stripHtmlTags : Nat → List Char → List Char
  | 0, s => s
  | _, [] => []
  | fuel + 1, c :: cs =>
    if c = '<' then
      match splitAtGt cs with
      | some (inner, rest) =>
        if inner.isEmpty then c :: stripHtmlTags fuel cs
        else stripHtmlTags fuel rest
      | none => c :: stripHtmlTags fuel cs
    else c :: stripHtmlTags fuel cs

/-- `HTML_TAG_PATTERN.sub('', s)`. -/
def stripTags (s : List Char) : List Char := stripHtmlTags (s.length + 1) s

/-- Python `\s` on the ASCII text at hand: space, tab, newline, carriage
return, vertical tab, form feed. -/
def isPySpace (c : Char) : Bool :=
  c = ' ' || c = '\t' || c = '\n' || c = '\r' || c = '\x0b' || c = '\x0c'

/-- Worker for `collapseWhitespace`, tracking whether the previous
character was whitespace. -/
def collapseWsAux : Bool → List Char → List Char
  | _, [] => []
  | prevSpace, c :: cs =>
    if isPySpace c then
      if prevSpace then collapseWsAux true cs
      else ' ' :: collapseWsAux true cs
    else c :: collapseWsAux false cs

/-- `WHITESPACE_PATTERN.sub(' ', s)` with `\s+`: every maximal whitespace
run becomes one space. -/
def collapseWhitespace (s : List Char) : List Char := collapseWsAux false s

/-- Python `str.strip()`: removes leading and trailing whitespace. -/
def pyStrip (s : List Char) : List Char :=
  ((s.dropWhile isPySpace).reverse.dropWhile isPySpace).reverse

/-- The cleanup pipeline shared by the three strategies (lines 330-334,
343-346, 356-359): `HTML_TAG_PATTERN.sub('', .)`, then
`WHITESPACE_PATTERN.sub(' ', .)`, then `.strip()`. -/
def cleanText (s : List Char) : List Char :=
  pyStrip (collapseWhitespace (stripTags s))

/-- The first `for`-loop of `_extract_verse_text` (lines 321-338): the
first `VERSE_SPAN_PATTERN` match with the target number (the loop `break`s
after it regardless), its stripped body searched for content sub-spans;
when some exist, their concatenation cleaned; the result when non-empty,
else `none` (the loop falls through). -/
def extractStrategy1 (content : List Char) (verse_number : ℤ) : Option String :=
  match (verseSpanMatches content).find?
      (fun m => decide ((m.1 : ℤ) = verse_number)) with
  | none => none
  | some m =>
    match contentFindall (pyStrip m.2) with
    | [] => none
    | content_matches =>
      match cleanText content_matches.flatten with
      | [] => none
      | verse_text => some (String.mk verse_text)

/-- The second `for`-loop (lines 341-350): the first
`LABEL_CONTENT_PATTERN` match with the target number, its captured content
span stripped and cleaned; the result when non-empty, else `none`. -/
def extractStrategy2 (content : List Char) (verse_number : ℤ) : Option String :=
  match (labelContentMatches content).find?
      (fun m => decide ((m.1 : ℤ) = verse_number)) with
  | none => none
  | some m =>
    match cleanText (pyStrip m.2) with
    | [] => none
    | verse_text => some (String.mk verse_text)

/-- The third `for`-loop (lines 353-363): the first
`VERSE_SPAN_FALLBACK_PATTERN` match with the target number, its raw body
stripped and cleaned; the result when non-empty, else `none`. -/
def extractStrategy3 (content : List Char) (verse_number : ℤ) : Option String :=
  match (verseFallbackMatches content).find?
      (fun m => decide ((m.1 : ℤ) = verse_number)) with
  | none => none
  | some m =>
    match cleanText (pyStrip m.2) with
    | [] => none
    | verse_text => some (String.mk verse_text)

/-- `YouVersionClient._extract_verse_text` (lines 303-366): reads the
markup out of `response.data.content` (empty string when absent) and runs
the three strategy loops in order, returning the first one that produces a
non-empty cleaned text and raising the not-found `ValueError` when all
three fall through. -/
def YouVersionClient.extract_verse_text (chapter_data : ChapterData)
    (verse_number : ℤ) : Except PyError String :=
  match extractStrategy1 (chapterContent chapter_data).toList verse_number with
  | some t => .ok t
  | none =>
    match extractStrategy2 (chapterContent chapter_data).toList verse_number with
    | some t => .ok t
    | none =>
      match extractStrategy3 (chapterContent chapter_data).toList verse_number with
      | some t => .ok t
      | none =>
        .error (.valueError s!"Verse {verse_number} not found in chapter data")

/-- Python `int(str)` restricted to the shapes that occur in USFM
references: optional surrounding whitespace, an optional sign, then one or
more decimal digits (Python additionally accepts underscore digit
separators, which never occur in references). -/
def pyInt? (s : String) : Option ℤ :=
  match pyStrip s.toList with
  | '-' :: ds =>
    if !ds.isEmpty && ds.all Char.isDigit then some (-(digitsToNat ds : ℤ)) else none
  | '+' :: ds =>
    if !ds.isEmpty && ds.all Char.isDigit then some ((digitsToNat ds : ℤ)) else none
  | ds =>
    if !ds.isEmpty && ds.all Char.isDigit then some ((digitsToNat ds : ℤ)) else none

/-- `YouVersionClient._extract_verse_number` (lines 286-301): the third
dot-separated component parsed as an int, defaulting to 1 when there are
fewer than three components or parsing fails. -/
def YouVersionClient.extract_verse_number (usfm_ref : String) : ℤ :=
  match (pySplitDot usfm_ref).get? 2 with
  | some p =>
    match pyInt? p with
    | some n => n
    | none => 1
  | none => 1

/-- The `book_mapping` table of `_usfm_to_human` (lines 378-402). -/
def book_mapping : List (String × String) :=
  [("GEN", "Genesis"), ("EXO", "Exodus"), ("LEV", "Leviticus"),
   ("NUM", "Numbers"), ("DEU", "Deuteronomy"), ("JOS", "Joshua"),
   ("JDG", "Judges"), ("RUT", "Ruth"), ("1SA", "1 Samuel"),
   ("2SA", "2 Samuel"), ("1KI", "1 Kings"), ("2KI", "2 Kings"),
   ("1CH", "1 Chronicles"), ("2CH", "2 Chronicles"), ("EZR", "Ezra"),
   ("NEH", "Nehemiah"), ("EST", "Esther"), ("JOB", "Job"),
   ("PSA", "Psalm"), ("PRO", "Proverbs"), ("ECC", "Ecclesiastes"),
   ("SNG", "Song of Solomon"), ("ISA", "Isaiah"), ("JER", "Jeremiah"),
   ("LAM", "Lamentations"), ("EZK", "Ezekiel"), ("DAN", "Daniel"),
   ("HOS", "Hosea"), ("JOL", "Joel"), ("AMO", "Amos"),
   ("OBA", "Obadiah"), ("JON", "Jonah"), ("MIC", "Micah"),
   ("NAM", "Nahum"), ("HAB", "Habakkuk"), ("ZEP", "Zephaniah"),
   ("HAG", "Haggai"), ("ZEC", "Zechariah"), ("MAL", "Malachi"),
   ("MAT", "Matthew"), ("MRK", "Mark"), ("LUK", "Luke"),
   ("JHN", "John"), ("ACT", "Acts"), ("ROM", "Romans"),
   ("1CO", "1 Corinthians"), ("2CO", "2 Corinthians"), ("GAL", "Galatians"),
   ("EPH", "Ephesians"), ("PHP", "Philippians"), ("COL", "Colossians"),
   ("1TH", "1 Thessalonians"), ("2TH", "2 Thessalonians"),
   ("1TI", "1 Timothy"),
   ("2TI", "2 Timothy"), ("TIT", "Titus"), ("PHM", "Philemon"),
   ("HEB", "Hebrews"), ("JAS", "James"), ("1PE", "1 Peter"),
   ("2PE", "2 Peter"), ("1JN", "1 John"), ("2JN", "2 John"),
   ("3JN", "3 John"), ("JUD", "Jude"), ("REV", "Revelation")]

/-- `YouVersionClient._usfm_to_human` (lines 368-413): `"GEN.1.1"` becomes
`"Genesis 1:1"`; unmapped book codes pass through; references with fewer
than three components are returned unchanged. -/
def YouVersionClient.usfm_to_human (usfm_ref : String) : String :=
  match pySplitDot usfm_ref with
  | book_abbr :: chapter :: verse :: _ =>
    (((book_mapping.find? (fun p => decide (p.1 = book_abbr))).map
        (fun p => p.2)).getD book_abbr) ++ " " ++ chapter ++ ":" ++ verse
  | _ => usfm_ref

/-- The chapter markup of the claim scenario. -/
def exampleMarkup : String :=
  "<span class=\"verse v1\"><span class=\"label\">1</span><span class=\"content\">Hello</span></span><span class=\"verse v2\">..."

/-! ## The VOTD cache and `get_formatted_verse_of_the_day` -/

/-- The stable output record assembled at lines 267-274. -/
structure FormattedVerse where
  day : Option ℤ
  usfm : String
  human_reference : String
  verse_text : String
  version_id : Nat
  image_id : Option String
deriving Repr, DecidableEq

/-- The `_votd_cache` OrderedDict (line 48): entries `(day, (insertion
timestamp, record))` in order, front = least recently inserted or
re-accessed. -/
abbrev VotdCache := List (ℤ × ℚ × FormattedVerse)

/-- `self._cache_ttl = 86400` (line 49). -/
def cache_ttl : ℚ := 86400

/-- `self._cache_maxsize = 100` (line 50). -/
def cache_maxsize : Nat := 100

/-- `OrderedDict.get(k)`. -/
def odGet (c : VotdCache) (k : ℤ) : Option (ℚ × FormattedVerse) :=
  (c.find? (fun e => decide (e.1 = k))).map (fun e => e.2)

/-- `OrderedDict.move_to_end(k)`: the entry moves to the back, the other
entries keep their order. For an absent key Python raises `KeyError`; the
only caller (a cache hit, line 236) never reaches that case and the model
returns the cache unchanged there. -/
def odMoveToEnd (c : VotdCache) (k : ℤ) : VotdCache :=
  match c.find? (fun e => decide (e.1 = k)) with
  | some e => c.filter (fun x => decide (x.1 ≠ k)) ++ [e]
  | none => c

/-- `del cache[k]` (line 240). -/
def odDel (c : VotdCache) (k : ℤ) : VotdCache :=
  c.filter (fun x => decide (x.1 ≠ k))

/-- `OrderedDict.popitem(last=False)` (line 279): removes the front
(oldest) entry. -/
def odPopFront (c : VotdCache) : VotdCache := c.tail

/-- `cache[k] = v` (line 281): replaces the value in place when the key is
present, appends at the back when it is fresh. -/
def odSet (c : VotdCache) (k : ℤ) (v : ℚ × FormattedVerse) : VotdCache :=
  if (c.find? (fun e => decide (e.1 = k))).isSome then
    c.map (fun e => if e.1 = k then (k, v) else e)
  else c ++ [(k, v)]

/-- The cache-check step of `get_formatted_verse_of_the_day` (lines
228-240): a stored entry younger than the TTL is a hit — its record is
returned and it moves to the most-recent position; an entry at least the
TTL old is deleted and the call proceeds as a miss; an absent key is a
plain miss. -/
def votdCacheLookup (cache : VotdCache) (day : ℤ) (now : ℚ) :
    Option FormattedVerse × VotdCache :=
  match odGet cache day with
  | some (ts, data) =>
    if now - ts < cache_ttl then (some data, odMoveToEnd cache day)
    else (none, odDel cache day)
  | none => (none, cache)

/-- The cache-insert step (lines 276-282): when the cache holds
`cache_maxsize` or more entries the front one is evicted, then the record
is stored under `day` with the current timestamp. -/
def votdCacheInsert (cache : VotdCache) (day : ℤ) (now : ℚ)
    (result : FormattedVerse) : VotdCache :=
  odSet (if cache.length ≥ cache_maxsize then odPopFront cache else cache)
    day (now, result)

/-- Cache states reachable through `get_formatted_verse_of_the_day`: the
empty initial cache, the state a lookup leaves behind, and the state after
an insert. -/
inductive VotdCacheReachable : VotdCache → Prop
  | init : VotdCacheReachable []
  | lookup (c : VotdCache) (day : ℤ) (now : ℚ) (h : VotdCacheReachable c) :
      VotdCacheReachable (votdCacheLookup c day now).2
  | insert (c : VotdCache) (day : ℤ) (now : ℚ) (v : FormattedVerse)
      (h : VotdCacheReachable c) :
      VotdCacheReachable (votdCacheInsert c day now v)

/-- The network dependencies of one `get_formatted_verse_of_the_day` call:
the settled outcome of the VOTD envelope GET and, for each chapter
reference, of the chapter GET. -/
structure FetchEnv where
  votdResp : Except String VotdResponse
  chapterNet : String → Except String ChapterHttpResponse

/-- `YouVersionClient.get_formatted_verse_of_the_day` (lines 211-284) with
`day` resolved (lines 225-226 default it to the current day of year).
Returns the call outcome, the cache left behind, and whether the network
was touched (`false` exactly on a cache hit). The two `time.time()` reads
(lines 233 and 281) are modelled by the same clock reading `now`. The
fallback `except ValueError` at line 258 catches every error
`get_verse_texts` can raise (its only error class is `ValueError`) and
retries only the first reference sequentially. The `chapter_data_list[0]`
access at line 257 cannot fail, since the ok-list has one entry per
reference and the reference list is non-empty at that point; the model
raises `IndexError` there, as Python would, to stay total. -/
def YouVersionClient.get_formatted_verse_of_the_day (cache : VotdCache)
    (day : ℤ) (now : ℚ) (env : FetchEnv) :
    Except PyError FormattedVerse × VotdCache × Bool :=
  match votdCacheLookup cache day now with
  | (some data, cache2) => (.ok data, cache2, false)
  | (none, cache2) =>
    match YouVersionClient.get_verse_of_the_day day env.votdResp with
    | .error e => (.error e, cache2, true)
    | .ok votd_data =>
      match votd_data.usfm with
      | [] =>
        (.error (.valueError "No USFM reference found in VOTD data"), cache2, true)
      | usfm_ref :: restRefs =>
        match
          ((match YouVersionClient.get_verse_texts
              (YouVersionClient.get_verse_text env.chapterNet)
              (usfm_ref :: restRefs) with
           | .ok (chapter_data :: _) => .ok chapter_data
           | .ok [] => .error (.indexError "list index out of range")
           | .error _ =>
             YouVersionClient.get_verse_text env.chapterNet usfm_ref) :
            Except PyError ChapterData)
        with
        | .error e => (.error e, cache2, true)
        | .ok chapter_data =>
          match YouVersionClient.extract_verse_text chapter_data
              (YouVersionClient.extract_verse_number usfm_ref) with
          | .error e => (.error e, cache2, true)
          | .ok verse_text =>
            (.ok { day := votd_data.day, usfm := usfm_ref,
                   human_reference := YouVersionClient.usfm_to_human usfm_ref,
                   verse_text := verse_text, version_id := 1,
                   image_id := votd_data.image_id },
             votdCacheInsert cache2 day now
               { day := votd_data.day, usfm := usfm_ref,
                 human_reference := YouVersionClient.usfm_to_human usfm_ref,
                 verse_text := verse_text, version_id := 1,
                 image_id := votd_data.image_id },
             true)

/-- A concrete record for cache instantiations. -/
def demoVerse : FormattedVerse :=
  { day := some 1, usfm := "GEN.1.1", human_reference := "Genesis 1:1",
    verse_text := "Hello", version_id := 1, image_id := none }

/-- A 100-entry cache (at capacity) with distinct keys `0..99`. -/
def demoFullCache : VotdCache :=
  (List.range cache_maxsize).map (fun i => ((i : ℤ), ((0 : ℚ), demoVerse)))

/-- The tail of `demoFullCache`: keys `1..99`. -/
def demoFullCacheRest : VotdCache :=
  (List.range (cache_maxsize - 1)).map
    (fun i => ((i + 1 : ℤ), ((0 : ℚ), demoVerse)))

/-- A concrete fetch environment: the envelope holds a single entry for
day 2 with reference `"GEN.1.1"`, and every chapter GET returns the
example markup. -/
def demoEnv : FetchEnv :=
  { votdResp := .ok ⟨200, [⟨some 2, ["GEN.1.1"], some "img"⟩]⟩,
    chapterNet := fun _ => .ok ⟨200, "", cdWith exampleMarkup⟩ }

/-! ## Rate limiter lemmas -/

theorem pruneCalls_cons_of_le {a : ℚ} (period now : ℚ) (l : List ℚ)
    (h : a ≤ now - period) :
    pruneCalls period now (a :: l) = pruneCalls period now l := by
  simp [pruneCalls, List.dropWhile, h]

theorem pruneCalls_cons_of_gt {a : ℚ} (period now : ℚ) (l : List ℚ)
    (h : now - period < a) :
    pruneCalls period now (a :: l) = a :: l := by
  simp [pruneCalls, List.dropWhile, not_le.mpr h]

theorem pruneCalls_length_le (period now : ℚ) (l : List ℚ) :
    (pruneCalls period now l).length ≤ l.length :=
  (List.dropWhile_sublist _).length_le

theorem pruneCalls_head_gt (period now : ℚ) (l : List ℚ) (a : ℚ) (l' : List ℚ)
    (h : pruneCalls period now l = a :: l') : now - period < a := by
  induction l with
  | nil => simp [pruneCalls] at h
  | cons b bs ih =>
    by_cases hb : b ≤ now - period
    · exact ih (by rwa [pruneCalls_cons_of_le _ _ _ hb] at h)
    · rw [pruneCalls_cons_of_gt _ _ _ (not_le.mp hb)] at h
      cases h
      exact not_le.mp hb

theorem pruneCalls_replicate_of_gt {t : ℚ} (period now : ℚ) (n : Nat)
    (h : now - period < t) :
    pruneCalls period now (List.replicate n t) = List.replicate n t := by
  cases n with
  | zero => rfl
  | succ m =>
    rw [List.replicate_succ]
    exact pruneCalls_cons_of_gt _ _ _ h

theorem wakeTime_of_gt {oldest period now : ℚ} (h : now - period < oldest) :
    wakeTime oldest period now = oldest + period := by
  have : oldest + period - now > 0 := by linarith
  simp only [wakeTime, this, if_pos]
  ring

theorem acquire_valid (rl : RateLimiter) (now : ℚ) (h : rl.valid) :
    (rl.acquire now).1.valid := by
  obtain ⟨hmax, hper, hlen⟩ := h
  have hlen1 : ((pruneCalls rl.period now rl.calls).length : ℤ) ≤ rl.calls.length := by
    exact_mod_cast pruneCalls_length_le rl.period now rl.calls
  unfold RateLimiter.acquire
  split
  · -- window full
    next hfull =>
    split
    · refine ⟨hmax, hper, ?_⟩
      show ((1 : ℕ) : ℤ) ≤ rl.max_calls
      omega
    · next oldest rest hcalls =>
      have hold : now - rl.period < oldest := pruneCalls_head_gt _ _ _ _ _ hcalls
      have hwake : wakeTime oldest rl.period now = oldest + rl.period :=
        wakeTime_of_gt hold
      refine ⟨hmax, hper, ?_⟩
      have hdrop : pruneCalls rl.period (wakeTime oldest rl.period now) (oldest :: rest)
          = pruneCalls rl.period (oldest + rl.period) rest := by
        rw [hwake]
        exact pruneCalls_cons_of_le _ _ _ (by linarith)
      have h2 : (pruneCalls rl.period (wakeTime oldest rl.period now)
          (oldest :: rest)).length ≤ rest.length := by
        rw [hdrop]; exact pruneCalls_length_le _ _ _
      have h3 : ((oldest :: rest).length : ℤ) ≤ rl.max_calls := by
        rw [← hcalls]; exact le_trans hlen1 hlen
    -- length of pruned ++ [wake] = (≤ rest.length) + 1 ≤ (rest.length + 1) ≤ max
      simp only [List.length_cons] at h3
      simp only [List.length_append, List.length_cons, List.length_nil]
      omega
  · next hfull =>
    refine ⟨hmax, hper, ?_⟩
    simp only [List.length_append, List.length_singleton]
    push_neg at hfull
    omega

theorem nbAcquire_valid (rl rl2 : RateLimiter) (now : ℚ) (h : rl.valid)
    (h2 : NonBlockingRateLimiter.acquire rl now = .ok rl2) : rl2.valid := by
  obtain ⟨hmax, hper, _⟩ := h
  unfold NonBlockingRateLimiter.acquire at h2
  split at h2
  · cases h2
  · next hfull =>
    cases h2
    refine ⟨hmax, hper, ?_⟩
    simp only [List.length_append, List.length_singleton]
    push_neg at hfull
    omega

theorem reachable_valid (rl : RateLimiter) (h : rl.Reachable) : rl.valid := by
  induction h with
  | init max_calls period rl h =>
    unfold RateLimiter.init at h
    split at h
    · cases h
    · split at h
      · cases h
      · next h1 h2 =>
        cases h
        push_neg at h1 h2
        exact ⟨h1, h2, by simpa using le_of_lt h1⟩
  | acquire rl now h ih => exact acquire_valid rl now ih
  | nbAcquire rl rl2 now h h2 ih => exact nbAcquire_valid rl rl2 now ih h2
  | reset rl h ih =>
    obtain ⟨hmax, hper, _⟩ := ih
    exact ⟨hmax, hper, by simpa [RateLimiter.reset] using le_of_lt hmax⟩
  | remaining rl now h ih =>
    obtain ⟨hmax, hper, hlen⟩ := ih
    refine ⟨hmax, hper, ?_⟩
    have h1 : ((pruneCalls rl.period now rl.calls).length : ℤ) ≤ rl.calls.length := by
      exact_mod_cast pruneCalls_length_le rl.period now rl.calls
    simp only [RateLimiter.get_remaining_calls]
    exact le_trans h1 hlen

theorem pruneCalls_replicate_of_le {t : ℚ} (period now : ℚ) (n : Nat)
    (h : t ≤ now - period) :
    pruneCalls period now (List.replicate n t) = [] := by
  induction n with
  | zero => rfl
  | succ m ih =>
    rw [List.replicate_succ, pruneCalls_cons_of_le _ _ _ h]
    exact ih

theorem acquire_replicate_lt (N : Nat) (P t : ℚ) (hP : 0 < P) (j : Nat) (hj : j < N) :
    ((⟨(N : ℤ), P, List.replicate j t⟩ : RateLimiter).acquire t).1
      = ⟨(N : ℤ), P, List.replicate (j + 1) t⟩ := by
  have hprune : pruneCalls P t (List.replicate j t) = List.replicate j t :=
    pruneCalls_replicate_of_gt _ _ _ (by linarith)
  unfold RateLimiter.acquire
  dsimp only
  rw [hprune]
  rw [if_neg (by simp only [List.length_replicate]; omega)]
  simp [List.replicate_succ']

theorem acquireRepeat_replicate (N : Nat) (P t : ℚ) (hP : 0 < P) (k j : Nat)
    (h : j + k ≤ N) :
    acquireRepeat ⟨(N : ℤ), P, List.replicate j t⟩ t k
      = ⟨(N : ℤ), P, List.replicate (j + k) t⟩ := by
  induction k generalizing j with
  | zero => rfl
  | succ m ih =>
    rw [acquireRepeat, acquire_replicate_lt N P t hP j (by omega), ih (j + 1) (by omega)]
    have harith : j + 1 + m = j + (m + 1) := by omega
    rw [harith]

theorem acquire_full_replicate (m : Nat) (P t0 t1 : ℚ)
    (h1 : t1 < t0 + P) :
    ((⟨((m + 1 : Nat) : ℤ), P, List.replicate (m + 1) t0⟩ : RateLimiter).acquire t1)
      = (⟨((m + 1 : Nat) : ℤ), P, [t0 + P]⟩, t0 + P) := by
  have hgt : t1 - P < t0 := by linarith
  have hprune : pruneCalls P t1 (List.replicate (m + 1) t0) = List.replicate (m + 1) t0 :=
    pruneCalls_replicate_of_gt _ _ _ hgt
  have hwake : wakeTime t0 P t1 = t0 + P := wakeTime_of_gt hgt
  unfold RateLimiter.acquire
  dsimp only
  rw [hprune]
  rw [if_pos (by simp only [List.length_replicate]; push_cast; omega)]
  rw [List.replicate_succ]
  dsimp only
  rw [hwake]
  have hdrop : pruneCalls P (t0 + P) (t0 :: List.replicate m t0) = [] := by
    rw [show (t0 :: List.replicate m t0) = List.replicate (m + 1) t0 from
      (List.replicate_succ t0 m).symm]
    exact pruneCalls_replicate_of_le _ _ _ (by linarith)
  rw [hdrop]
  simp

theorem nbAcquire_replicate_lt (N : Nat) (P t : ℚ) (hP : 0 < P) (j : Nat) (hj : j < N) :
    NonBlockingRateLimiter.acquire ⟨(N : ℤ), P, List.replicate j t⟩ t
      = .ok ⟨(N : ℤ), P, List.replicate (j + 1) t⟩ := by
  have hprune : pruneCalls P t (List.replicate j t) = List.replicate j t :=
    pruneCalls_replicate_of_gt _ _ _ (by linarith)
  unfold NonBlockingRateLimiter.acquire
  dsimp only
  rw [hprune]
  rw [if_neg (by simp only [List.length_replicate]; omega)]
  simp [List.replicate_succ']

theorem nbAcquireRepeat_replicate (N : Nat) (P t : ℚ) (hP : 0 < P) (k j : Nat)
    (h : j + k ≤ N) :
    nbAcquireRepeat ⟨(N : ℤ), P, List.replicate j t⟩ t k
      = .ok ⟨(N : ℤ), P, List.replicate (j + k) t⟩ := by
  induction k generalizing j with
  | zero => rfl
  | succ m ih =>
    rw [nbAcquireRepeat, nbAcquire_replicate_lt N P t hP j (by omega)]
    dsimp only
    rw [ih (j + 1) (by omega)]
    have harith : j + 1 + m = j + (m + 1) := by omega
    rw [harith]

/-! ## Claim theorems for the rate limiter -/

/-- Claim C2: for a blocking `RateLimiter` with `max_calls = N`, `period = P`
(validly configured), `acquire` first drops the expired timestamps, and when
`N` or more remain it suspends for `(oldest + P) - now`, re-prunes at the
wake-up clock reading, and appends that reading. Consequently, starting from
a fresh limiter, after `N` back-to-back `acquire` calls at time `t0` the
recorded window is `N` copies of `t0`; an `(N+1)`-th `acquire` at any time
`t1` still inside the window (`t0 ≤ t1 < t0 + P`) completes exactly at
`t0 + P`, i.e. no earlier than the time remaining until the oldest recorded
call exits the trailing window, and the stamps expired at wake-up have been
re-pruned before the completion time is recorded. -/
theorem rate_limiter_blocking_spec (N : Nat) (P t0 t1 : ℚ)
    (hN : 0 < N) (hP : 0 < P) (_h01 : t0 ≤ t1) (h1 : t1 < t0 + P) :
    acquireRepeat ⟨(N : ℤ), P, []⟩ t0 N = ⟨(N : ℤ), P, List.replicate N t0⟩ ∧
    ((acquireRepeat ⟨(N : ℤ), P, []⟩ t0 N).acquire t1).2 = t0 + P ∧
    (t0 + P) - t1 ≤ ((acquireRepeat ⟨(N : ℤ), P, []⟩ t0 N).acquire t1).2 - t1 ∧
    ((acquireRepeat ⟨(N : ℤ), P, []⟩ t0 N).acquire t1).1.calls = [t0 + P] := by
  obtain ⟨m, rfl⟩ : ∃ m, N = m + 1 := ⟨N - 1, by omega⟩
  have hrep : acquireRepeat ⟨((m + 1 : Nat) : ℤ), P, []⟩ t0 (m + 1)
      = ⟨((m + 1 : Nat) : ℤ), P, List.replicate (m + 1) t0⟩ := by
    have := acquireRepeat_replicate (m + 1) P t0 hP (m + 1) 0 (by omega)
    simpa using this
  have hfull := acquire_full_replicate m P t0 t1 h1
  refine ⟨hrep, ?_, ?_, ?_⟩
  · rw [hrep, hfull]
  · rw [hrep, hfull]
  · rw [hrep, hfull]

/-- Witness for `rate_limiter_blocking_spec` at `N = 2`, `P = 1`, `t0 = 0`,
`t1 = 1/2`. -/
theorem rate_limiter_blocking_spec_witness :
    acquireRepeat ⟨((2 : Nat) : ℤ), 1, []⟩ 0 2 = ⟨((2 : Nat) : ℤ), 1, List.replicate 2 0⟩ ∧
    ((acquireRepeat ⟨((2 : Nat) : ℤ), 1, []⟩ 0 2).acquire (1/2)).2 = 0 + 1 ∧
    (0 + 1) - 1/2 ≤ ((acquireRepeat ⟨((2 : Nat) : ℤ), 1, []⟩ 0 2).acquire (1/2)).2 - 1/2 ∧
    ((acquireRepeat ⟨((2 : Nat) : ℤ), 1, []⟩ 0 2).acquire (1/2)).1.calls = [0 + 1] :=
  rate_limiter_blocking_spec 2 1 0 (1/2) (by norm_num) (by norm_num) (by norm_num)
    (by norm_num)

/-- Claim C7: for the non-blocking limiter with `max_calls = N`,
`period = P`, after `N` successful `acquire` calls at time `t0`, an
`(N+1)`-th call at any `t1` still inside the window raises
`RateLimitExceeded` (and, the variant never sleeping, completes
immediately); after `reset` clears the ledger, the next `acquire` at any
time `t2` succeeds. -/
theorem non_blocking_rate_limiter_spec (N : Nat) (P t0 t1 t2 : ℚ)
    (hN : 0 < N) (hP : 0 < P) (_h01 : t0 ≤ t1) (h1 : t1 < t0 + P) :
    nbAcquireRepeat ⟨(N : ℤ), P, []⟩ t0 N = .ok ⟨(N : ℤ), P, List.replicate N t0⟩ ∧
    NonBlockingRateLimiter.acquire ⟨(N : ℤ), P, List.replicate N t0⟩ t1
      = .error (.rateLimitExceeded
          s!"Rate limit exceeded: {((N : ℤ))} calls per {P} seconds") ∧
    NonBlockingRateLimiter.acquire
        (RateLimiter.reset ⟨(N : ℤ), P, List.replicate N t0⟩) t2
      = .ok ⟨(N : ℤ), P, [t2]⟩ := by
  refine ⟨?_, ?_, ?_⟩
  · have := nbAcquireRepeat_replicate N P t0 hP N 0 (by omega)
    simpa using this
  · have hprune : pruneCalls P t1 (List.replicate N t0) = List.replicate N t0 :=
      pruneCalls_replicate_of_gt _ _ _ (by linarith)
    unfold NonBlockingRateLimiter.acquire
    dsimp only
    rw [hprune]
    rw [if_pos (by simp only [List.length_replicate]; omega)]
  · unfold NonBlockingRateLimiter.acquire RateLimiter.reset
    dsimp only
    rw [if_neg (by simp [pruneCalls]; omega)]
    simp [pruneCalls]

/-- Witness for `non_blocking_rate_limiter_spec` at `N = 1`, `P = 1`,
`t0 = 0`, `t1 = 1/2`, `t2 = 2`. -/
theorem non_blocking_rate_limiter_spec_witness :
    nbAcquireRepeat ⟨((1 : Nat) : ℤ), 1, []⟩ 0 1 = .ok ⟨((1 : Nat) : ℤ), 1, List.replicate 1 0⟩ ∧
    NonBlockingRateLimiter.acquire ⟨((1 : Nat) : ℤ), 1, List.replicate 1 0⟩ (1/2)
      = .error (.rateLimitExceeded
          s!"Rate limit exceeded: {(((1 : Nat) : ℤ))} calls per {(1 : ℚ)} seconds") ∧
    NonBlockingRateLimiter.acquire
        (RateLimiter.reset ⟨((1 : Nat) : ℤ), 1, List.replicate 1 0⟩) 2
      = .ok ⟨((1 : Nat) : ℤ), 1, [2]⟩ :=
  non_blocking_rate_limiter_spec 1 1 0 (1/2) 2 (by norm_num) (by norm_num) (by norm_num)
    (by norm_num)

/-- Claim C9, amended: `get_remaining_calls` reports `max_calls` minus the
number of timestamps remaining after pruning the expired ones, and for every
reachable limiter state the reported number is never negative; however the
read is not non-mutating: it stores the pruned ledger back (dropping the
expired entries in place). -/
theorem get_remaining_calls_spec (rl : RateLimiter) (now : ℚ) (h : rl.Reachable) :
    0 ≤ (rl.get_remaining_calls now).1 ∧
    (rl.get_remaining_calls now).1
      = rl.max_calls - ((pruneCalls rl.period now rl.calls).length : ℤ) ∧
    (rl.get_remaining_calls now).2.calls = pruneCalls rl.period now rl.calls := by
  obtain ⟨hmax, hper, hlen⟩ := reachable_valid rl h
  have h1 : ((pruneCalls rl.period now rl.calls).length : ℤ) ≤ rl.calls.length := by
    exact_mod_cast pruneCalls_length_le rl.period now rl.calls
  refine ⟨?_, rfl, rfl⟩
  simp only [RateLimiter.get_remaining_calls]
  omega

/-- Witness for `get_remaining_calls_spec` at the reachable state obtained
by constructing `RateLimiter(1, 1)` and reading at time `0`. -/
theorem get_remaining_calls_spec_witness :
    0 ≤ (RateLimiter.get_remaining_calls ⟨1, 1, []⟩ 0).1 ∧
    (RateLimiter.get_remaining_calls ⟨1, 1, []⟩ 0).1
      = (⟨1, 1, []⟩ : RateLimiter).max_calls
        - ((pruneCalls (⟨1, 1, []⟩ : RateLimiter).period 0
            (⟨1, 1, []⟩ : RateLimiter).calls).length : ℤ) ∧
    (RateLimiter.get_remaining_calls ⟨1, 1, []⟩ 0).2.calls
      = pruneCalls (⟨1, 1, []⟩ : RateLimiter).period 0 (⟨1, 1, []⟩ : RateLimiter).calls :=
  get_remaining_calls_spec ⟨1, 1, []⟩ 0
    (RateLimiter.Reachable.init 1 1 ⟨1, 1, []⟩ rfl)

/-- Claim C9, counterexample to "non-mutating": the reachable state with
`max_calls = 1`, `period = 1` and one recorded call at time `0`, read at
time `2`, is changed by `get_remaining_calls` (the expired stamp is dropped
from the ledger in place). -/
theorem get_remaining_calls_mutates_cex :
    RateLimiter.Reachable ⟨1, 1, [0]⟩ ∧
    (RateLimiter.get_remaining_calls ⟨1, 1, [0]⟩ 2).2 ≠ ⟨1, 1, [0]⟩ := by
  constructor
  · have h1 := RateLimiter.Reachable.init 1 1 ⟨1, 1, []⟩ rfl
    have h2 := RateLimiter.Reachable.acquire ⟨1, 1, []⟩ 0 h1
    have h3 : ((⟨1, 1, []⟩ : RateLimiter).acquire 0).1 = ⟨1, 1, [0]⟩ := rfl
    rwa [h3] at h2
  · have hp : pruneCalls (1 : ℚ) 2 [(0 : ℚ)] = [] := by
      rw [pruneCalls_cons_of_le _ _ _ (by norm_num)]
      rfl
    intro hcontra
    have hcalls : (RateLimiter.get_remaining_calls ⟨1, 1, [0]⟩ 2).2.calls = [0] := by
      rw [hcontra]
    rw [show (RateLimiter.get_remaining_calls ⟨1, 1, [0]⟩ 2).2.calls
        = pruneCalls 1 2 [0] from rfl, hp] at hcalls
    exact List.cons_ne_nil 0 [] hcalls.symm

/-! ## Claim theorems for multi-reference fetch and the envelope endpoint -/

theorem get_verse_texts_all_ok (fetchOne : String → Except PyError ChapterData)
    (refs : List String) (g : String → ChapterData)
    (h : ∀ r ∈ refs, fetchOne r = .ok (g r)) :
    YouVersionClient.get_verse_texts fetchOne refs = .ok (refs.map g) := by
  induction refs with
  | nil => rfl
  | cons r rest ih =>
    have hr : fetchOne r = .ok (g r) := h r (by simp)
    have hrest := ih (fun x hx => h x (by simp [hx]))
    show gatherLoop ((r, fetchOne r) :: rest.map (fun x => (x, fetchOne x)))
      = .ok ((r :: rest).map g)
    rw [hr]
    show (match gatherLoop (rest.map (fun x => (x, fetchOne x))) with
      | .ok l => Except.ok (g r :: l)
      | .error e => .error e) = .ok ((r :: rest).map g)
    rw [show gatherLoop (rest.map (fun x => (x, fetchOne x)))
        = YouVersionClient.get_verse_texts fetchOne rest from rfl]
    rw [hrest]
    rfl

theorem get_verse_texts_any_error (fetchOne : String → Except PyError ChapterData)
    (refs : List String)
    (h : ∃ r ∈ refs, ∃ e, fetchOne r = .error e) :
    ∃ msg, YouVersionClient.get_verse_texts fetchOne refs
      = .error (.valueError msg) := by
  induction refs with
  | nil => simp at h
  | cons r rest ih =>
    rcases hfr : fetchOne r with e | d
    · refine ⟨s!"Failed to fetch verse {r}: {e.message}", ?_⟩
      show gatherLoop ((r, fetchOne r) :: rest.map (fun x => (x, fetchOne x)))
        = _
      rw [hfr]
      rfl
    · have h2 : ∃ x ∈ rest, ∃ e, fetchOne x = .error e := by
        rcases h with ⟨x, hx, e2, hxe⟩
        rcases List.mem_cons.mp hx with rfl | hxr
        · rw [hfr] at hxe; cases hxe
        · exact ⟨x, hxr, e2, hxe⟩
      rcases ih h2 with ⟨msg, hmsg⟩
      refine ⟨msg, ?_⟩
      show gatherLoop ((r, fetchOne r) :: rest.map (fun x => (x, fetchOne x)))
        = _
      rw [hfr]
      show (match gatherLoop (rest.map (fun x => (x, fetchOne x))) with
        | .ok l => Except.ok (d :: l)
        | .error e => .error e) = _
      rw [show gatherLoop (rest.map (fun x => (x, fetchOne x)))
          = YouVersionClient.get_verse_texts fetchOne rest from rfl]
      rw [hmsg]

/-- Claim C3: `get_verse_texts` returns the per-reference results in the
same order as the input list — `asyncio.gather` settles to per-task results
in task (= input) order regardless of the order responses arrive, which the
per-reference outcome map `fetchOne` captures — and it is all-or-nothing:
if fetching any single reference fails, the whole call fails with a
`ValueError` and no partial result list is returned. -/
theorem get_verse_texts_order_and_all_or_nothing
    (fetchOne : String → Except PyError ChapterData)
    (usfm_references : List String) :
    (∀ g : String → ChapterData,
      (∀ r ∈ usfm_references, fetchOne r = .ok (g r)) →
        YouVersionClient.get_verse_texts fetchOne usfm_references
          = .ok (usfm_references.map g)) ∧
    ((∃ r ∈ usfm_references, ∃ e, fetchOne r = .error e) →
      ∃ msg, YouVersionClient.get_verse_texts fetchOne usfm_references
        = .error (.valueError msg)) :=
  ⟨fun g hg => get_verse_texts_all_ok fetchOne usfm_references g hg,
   fun h => get_verse_texts_any_error fetchOne usfm_references h⟩

/-- Witness for `get_verse_texts_order_and_all_or_nothing` on the reference
list `["A", "B", "C"]`: all-success yields the results in input order;
a failure on `"B"` fails the whole call. -/
theorem get_verse_texts_order_and_all_or_nothing_witness :
    YouVersionClient.get_verse_texts demoFetchOk ["A", "B", "C"]
      = .ok (["A", "B", "C"].map cdWith) ∧
    (∃ msg, YouVersionClient.get_verse_texts demoFetchFail ["A", "B", "C"]
      = .error (.valueError msg)) :=
  ⟨(get_verse_texts_order_and_all_or_nothing demoFetchOk ["A", "B", "C"]).1
      cdWith (fun r _ => rfl),
   (get_verse_texts_order_and_all_or_nothing demoFetchFail ["A", "B", "C"]).2
      ⟨"B", by simp, .valueError "boom", rfl⟩⟩

/-- Claim C4, amended: `get_verse_of_the_day(day)` returns the envelope
entry whose `day` field equals the requested day; if no entry matches but
entries exist, it returns the first entry; if no entries exist, it fails
with the not-found error; and it fails with a descriptive error exactly
when the HTTP status is not 200 (rather than: not 2xx) or a transport
failure occurs — in all other cases with a nonempty entry list it
succeeds. -/
theorem get_verse_of_the_day_spec (day : ℤ) (resp : Except String VotdResponse) :
    (∀ r v, resp = .ok r → r.status_code = 200 →
      r.votd.find? (fun x => decide (x.day = some day)) = some v →
      YouVersionClient.get_verse_of_the_day day resp = .ok v) ∧
    (∀ r v0 rest, resp = .ok r → r.status_code = 200 →
      r.votd.find? (fun x => decide (x.day = some day)) = none →
      r.votd = v0 :: rest →
      YouVersionClient.get_verse_of_the_day day resp = .ok v0) ∧
    (∀ r, resp = .ok r → r.status_code = 200 → r.votd = [] →
      YouVersionClient.get_verse_of_the_day day resp
        = .error (.valueError s!"No verse of the day found for day {day}")) ∧
    (∀ r, resp = .ok r → r.status_code ≠ 200 →
      YouVersionClient.get_verse_of_the_day day resp
        = .error (.valueError s!"VOTD API request failed: {r.status_code}")) ∧
    (∀ e, resp = .error e →
      YouVersionClient.get_verse_of_the_day day resp
        = .error (.valueError s!"VOTD API request failed: {e}")) ∧
    ((∃ v, YouVersionClient.get_verse_of_the_day day resp = .ok v) ↔
      (∃ r, resp = .ok r ∧ r.status_code = 200 ∧ r.votd ≠ [])) := by
  refine ⟨?_, ?_, ?_, ?_, ?_, ?_⟩
  · rintro r v rfl h200 hfind
    simp [YouVersionClient.get_verse_of_the_day, h200, hfind]
  · rintro r v0 rest rfl h200 hfind hvotd
    rw [hvotd] at hfind
    simp [YouVersionClient.get_verse_of_the_day, h200, hfind, hvotd]
  · rintro r rfl h200 hvotd
    simp [YouVersionClient.get_verse_of_the_day, h200, hvotd]
  · rintro r rfl hst
    simp [YouVersionClient.get_verse_of_the_day, hst]
  · rintro e rfl
    simp [YouVersionClient.get_verse_of_the_day]
  · constructor
    · rintro ⟨v, hv⟩
      rcases resp with e | r
      · simp [YouVersionClient.get_verse_of_the_day] at hv
      · refine ⟨r, rfl, ?_, ?_⟩
        · by_contra hst
          simp [YouVersionClient.get_verse_of_the_day, hst] at hv
        · intro hvotd
          by_cases hst : r.status_code = 200
          · simp [YouVersionClient.get_verse_of_the_day, hst, hvotd] at hv
          · simp [YouVersionClient.get_verse_of_the_day, hst] at hv
    · rintro ⟨r, rfl, h200, hvotd⟩
      rcases hfind : r.votd.find? (fun x => decide (x.day = some day)) with _ | v
      · rcases hv : r.votd with _ | ⟨v0, rest⟩
        · exact absurd hv hvotd
        · rw [hv] at hfind
          exact ⟨v0, by simp [YouVersionClient.get_verse_of_the_day, h200, hfind, hv]⟩
      · exact ⟨v, by simp [YouVersionClient.get_verse_of_the_day, h200, hfind]⟩

/-- Witness for `get_verse_of_the_day_spec`: each branch at concrete
inputs — a matching entry, the first-entry fallback, the empty envelope,
a 404 status and a transport failure. -/
theorem get_verse_of_the_day_spec_witness :
    YouVersionClient.get_verse_of_the_day 1
        (.ok ⟨200, [⟨some 1, ["GEN.1.1"], none⟩]⟩)
      = .ok ⟨some 1, ["GEN.1.1"], none⟩ ∧
    YouVersionClient.get_verse_of_the_day 7
        (.ok ⟨200, [⟨some 1, ["GEN.1.1"], none⟩]⟩)
      = .ok ⟨some 1, ["GEN.1.1"], none⟩ ∧
    YouVersionClient.get_verse_of_the_day 1 (.ok ⟨200, []⟩)
      = .error (.valueError "No verse of the day found for day 1") ∧
    YouVersionClient.get_verse_of_the_day 1 (.ok ⟨404, []⟩)
      = .error (.valueError "VOTD API request failed: 404") ∧
    YouVersionClient.get_verse_of_the_day 1 (.error "boom")
      = .error (.valueError "VOTD API request failed: boom") :=
  ⟨(get_verse_of_the_day_spec 1 (.ok ⟨200, [⟨some 1, ["GEN.1.1"], none⟩]⟩)).1
      ⟨200, [⟨some 1, ["GEN.1.1"], none⟩]⟩ ⟨some 1, ["GEN.1.1"], none⟩ rfl rfl rfl,
   (get_verse_of_the_day_spec 7 (.ok ⟨200, [⟨some 1, ["GEN.1.1"], none⟩]⟩)).2.1
      ⟨200, [⟨some 1, ["GEN.1.1"], none⟩]⟩ ⟨some 1, ["GEN.1.1"], none⟩ [] rfl rfl rfl rfl,
   (get_verse_of_the_day_spec 1 (.ok ⟨200, []⟩)).2.2.1 ⟨200, []⟩ rfl rfl rfl,
   (get_verse_of_the_day_spec 1 (.ok ⟨404, []⟩)).2.2.2.1 ⟨404, []⟩ rfl (by norm_num),
   (get_verse_of_the_day_spec 1 (.error "boom")).2.2.2.2.1 "boom" rfl⟩

/-- Claim C4, counterexample to the claim as stated: a 201 response is 2xx
and no transport failure occurs, and a matching entry exists, yet the call
fails — the code compares the status against 200 exactly, not against the
2xx range. -/
theorem get_verse_of_the_day_2xx_cex :
    200 ≤ 201 ∧ 201 < 300 ∧
    YouVersionClient.get_verse_of_the_day 1
        (.ok ⟨201, [⟨some 1, ["GEN.1.1"], none⟩]⟩)
      = .error (.valueError "VOTD API request failed: 201") :=
  ⟨by norm_num, by norm_num, rfl⟩

/-! ## Claim theorems for the authenticator and construction -/

/-- Claim C6: `get_access_token` reuses the stored token without any
network call whenever the stored token is truthy and its expiry is more
than 60 seconds in the future, and triggers a refresh whenever the token is
absent or within 60 seconds of expiry; on a refresh against a 200 response
the new absolute expiry is `now + expires_in`, with `expires_in` defaulting
to 3600 seconds when the server omits it. -/
theorem get_access_token_spec (a : YouVersionAuthenticator) (now e : ℚ)
    (resp : Except String TokenResponse)
    (extract_user : String → Option String → Option String) :
    (∀ t, a.access_token = some t → t.isEmpty = false → a.token_expiry = some e →
      0 ≤ now → now + 60 < e →
      a.get_access_token now resp extract_user = .ok (t, a, false)) ∧
    (a.token_expiry = some e → e ≤ now + 60 →
      ∀ r tok, resp = .ok r → r.status_code = 200 → r.access_token = some tok →
        a.get_access_token now resp extract_user
          = .ok (tok, { a with
              access_token := some tok,
              token_expiry := some (now + r.expires_in.getD 3600),
              user_id := extract_user tok a.user_id }, true)) ∧
    (a.access_token = none →
      ∀ r tok, resp = .ok r → r.status_code = 200 → r.access_token = some tok →
        a.get_access_token now resp extract_user
          = .ok (tok, { a with
              access_token := some tok,
              token_expiry := some (now + r.expires_in.getD 3600),
              user_id := extract_user tok a.user_id }, true)) := by
  refine ⟨?_, ?_, ?_⟩
  · intro t htok hne hexp hnow hfut
    have hvalid : a.is_token_valid now = true := by
      have he0 : e ≠ 0 := by intro h0; rw [h0] at hfut; linarith
      unfold YouVersionAuthenticator.is_token_valid
      rw [htok, hexp]
      have h1 : (!pyTruthyStr (some t)) = false := by simp [pyTruthyStr, hne]
      have h2 : (!pyTruthyQ (some e)) = false := by simp [pyTruthyQ, he0]
      rw [h1, h2]
      simp only [Bool.or_self, Bool.or_false, if_false]
      exact decide_eq_true (by simp only [Option.getD_some]; linarith)
    simp [YouVersionAuthenticator.get_access_token, hvalid, htok]
  · intro hexp hnear r tok hresp h200 htok
    have hvalid : a.is_token_valid now = false := by
      unfold YouVersionAuthenticator.is_token_valid
      rcases hat : a.access_token with _ | t
      · rfl
      · rw [hexp]
        cases hie : t.isEmpty with
        | true =>
          have h1 : (!pyTruthyStr (some t)) = true := by simp [pyTruthyStr, hie]
          rw [h1]
          rfl
        | false =>
          rcases eq_or_ne e 0 with rfl | he0
          · simp [pyTruthyQ]
          · have h1 : (!pyTruthyStr (some t)) = false := by
              simp [pyTruthyStr, hie]
            have h2 : (!pyTruthyQ (some e)) = false := by
              simp [pyTruthyQ, he0]
            rw [h1, h2]
            simp only [Bool.or_self, Bool.or_false, if_false]
            exact decide_eq_false (by simp only [Option.getD_some]; linarith)
    subst hresp
    simp [YouVersionAuthenticator.get_access_token, hvalid,
      YouVersionAuthenticator.authenticate, h200, htok]
  · intro hat r tok hresp h200 htok
    have hvalid : a.is_token_valid now = false := by
      simp [YouVersionAuthenticator.is_token_valid, hat, pyTruthyStr]
    subst hresp
    simp [YouVersionAuthenticator.get_access_token, hvalid,
      YouVersionAuthenticator.authenticate, h200, htok]

/-- Witness for `get_access_token_spec`: expiry `now + 120` (reused without
the network, state unchanged), expiry `now + 30` (refresh with the server
omitting `expires_in`, giving expiry `now + 3600`), and an absent token
(refresh). -/
theorem get_access_token_spec_witness :
    YouVersionAuthenticator.get_access_token
        ⟨"u", "p", some "tok", some 120, none⟩ 0 (.ok ⟨200, "", some "new", none⟩)
        demoExtractUser
      = .ok ("tok", ⟨"u", "p", some "tok", some 120, none⟩, false) ∧
    YouVersionAuthenticator.get_access_token
        ⟨"u", "p", some "tok", some 30, none⟩ 0 (.ok ⟨200, "", some "new", none⟩)
        demoExtractUser
      = .ok ("new", ⟨"u", "p", some "new", some 3600, none⟩, true) ∧
    YouVersionAuthenticator.get_access_token
        ⟨"u", "p", none, none, none⟩ 0 (.ok ⟨200, "", some "new", none⟩)
        demoExtractUser
      = .ok ("new", ⟨"u", "p", some "new", some 3600, none⟩, true) := by
  refine ⟨?_, ?_, ?_⟩
  · exact (get_access_token_spec ⟨"u", "p", some "tok", some 120, none⟩ 0 120
      (.ok ⟨200, "", some "new", none⟩) demoExtractUser).1 "tok" rfl
      rfl rfl (by norm_num) (by norm_num)
  · have := (get_access_token_spec ⟨"u", "p", some "tok", some 30, none⟩ 0 30
      (.ok ⟨200, "", some "new", none⟩) demoExtractUser).2.1 rfl (by norm_num)
      ⟨200, "", some "new", none⟩ "new" rfl rfl rfl
    simpa [demoExtractUser] using this
  · have := (get_access_token_spec ⟨"u", "p", none, none, none⟩ 0 0
      (.ok ⟨200, "", some "new", none⟩) demoExtractUser).2.2 rfl
      ⟨200, "", some "new", none⟩ "new" rfl rfl rfl
    simpa [demoExtractUser] using this

/-- Claim C8 (the code deviates): the rate limiter constructor raises
`ValueError` exactly when `max_calls <= 0` or `period <= 0`, and the
authenticator constructor raises `ValueError` exactly when the username or
password credential is missing (falsy); but the content client constructor
raises `TypeError` even with both credentials present: client.py line 47
calls `get_async_client()`, and async_http_client.py line 157 binds that
name to the value of the `client` property — the `httpx.AsyncClient`
instance, which is not callable. So with valid configuration the client
construction does not succeed, contradicting the claim (and the
repository's own test suite, whose `setUp` constructs
`YouVersionClient()`). -/
theorem construction_config_errors :
    (∀ (mc : ℤ) (p : ℚ),
      (∃ rl, RateLimiter.init mc p = .ok rl) ↔ (0 < mc ∧ 0 < p)) ∧
    (∀ u pw : Option String,
      (∃ a, YouVersionAuthenticator.init u pw = .ok a)
        ↔ (pyTruthyStr u = true ∧ pyTruthyStr pw = true)) ∧
    YouVersionClient.init (some "user") (some "pass")
      = .error (.typeError "AsyncClient object is not callable") := by
  refine ⟨?_, ?_, rfl⟩
  · intro mc p
    constructor
    · rintro ⟨rl, hrl⟩
      unfold RateLimiter.init at hrl
      split at hrl
      · cases hrl
      · split at hrl
        · cases hrl
        · next h1 h2 => exact ⟨by omega, lt_of_not_le h2⟩
    · rintro ⟨h1, h2⟩
      refine ⟨⟨mc, p, []⟩, ?_⟩
      unfold RateLimiter.init
      rw [if_neg (by omega), if_neg (not_le.mpr h2)]
  · intro u pw
    constructor
    · rintro ⟨a, ha⟩
      unfold YouVersionAuthenticator.init at ha
      split at ha
      · cases ha
      · next h =>
        have hb : (!pyTruthyStr u || !pyTruthyStr pw) = false :=
          Bool.eq_false_iff.mpr h
        rcases Bool.or_eq_false_iff.mp hb with ⟨h1, h2⟩
        exact ⟨by simpa using h1, by simpa using h2⟩
    · rintro ⟨h1, h2⟩
      refine ⟨⟨u.getD "", pw.getD "", none, none, none⟩, ?_⟩
      unfold YouVersionAuthenticator.init
      rw [if_neg (by simp [h1, h2])]

/-! ## Claim theorems for the verse-text extractor -/

theorem extractStrategy1_ne_empty (s : List Char) (n : ℤ) (t : String)
    (h : extractStrategy1 s n = some t) : t ≠ "" := by
  unfold extractStrategy1 at h
  split at h
  · cases h
  · split at h
    · cases h
    · split at h
      · cases h
      · rename_i hne
        cases h
        intro hcontra
        exact hne (by simpa using congrArg String.data hcontra)

theorem extractStrategy2_ne_empty (s : List Char) (n : ℤ) (t : String)
    (h : extractStrategy2 s n = some t) : t ≠ "" := by
  unfold extractStrategy2 at h
  split at h
  · cases h
  · split at h
    · cases h
    · rename_i hne
      cases h
      intro hcontra
      exact hne (by simpa using congrArg String.data hcontra)

theorem extractStrategy3_ne_empty (s : List Char) (n : ℤ) (t : String)
    (h : extractStrategy3 s n = some t) : t ≠ "" := by
  unfold extractStrategy3 at h
  split at h
  · cases h
  · split at h
    · cases h
    · rename_i hne
      cases h
      intro hcontra
      exact hne (by simpa using congrArg String.data hcontra)

/-- Claim C5: the extractor applies its three strategies in the documented
order (scoped content-span extraction, label-anchored fallback, raw-span
fallback) and returns the first non-empty cleaned result (every `some` a
strategy produces is non-empty by construction); when all three yield empty
or no match it raises the verse-not-found `ValueError`; and on the markup
`<span class="verse v1"><span class="label">1</span><span
class="content">Hello</span></span><span class="verse v2">...` requesting
verse 1 yields `"Hello"`, trimmed and tag-free. -/
theorem extract_verse_text_spec (chapter_data : ChapterData) (verse_number : ℤ) :
    (∀ t, extractStrategy1 (chapterContent chapter_data).toList verse_number = some t →
      YouVersionClient.extract_verse_text chapter_data verse_number = .ok t) ∧
    (∀ t, extractStrategy1 (chapterContent chapter_data).toList verse_number = none →
      extractStrategy2 (chapterContent chapter_data).toList verse_number = some t →
      YouVersionClient.extract_verse_text chapter_data verse_number = .ok t) ∧
    (∀ t, extractStrategy1 (chapterContent chapter_data).toList verse_number = none →
      extractStrategy2 (chapterContent chapter_data).toList verse_number = none →
      extractStrategy3 (chapterContent chapter_data).toList verse_number = some t →
      YouVersionClient.extract_verse_text chapter_data verse_number = .ok t) ∧
    (extractStrategy1 (chapterContent chapter_data).toList verse_number = none →
      extractStrategy2 (chapterContent chapter_data).toList verse_number = none →
      extractStrategy3 (chapterContent chapter_data).toList verse_number = none →
      YouVersionClient.extract_verse_text chapter_data verse_number
        = .error (.valueError s!"Verse {verse_number} not found in chapter data")) ∧
    (∀ (s : List Char) (t : String),
      (extractStrategy1 s verse_number = some t ∨
       extractStrategy2 s verse_number = some t ∨
       extractStrategy3 s verse_number = some t) → t ≠ "") ∧
    YouVersionClient.extract_verse_text (cdWith exampleMarkup) 1 = .ok "Hello" := by
  refine ⟨?_, ?_, ?_, ?_, ?_, rfl⟩
  · intro t h1
    unfold YouVersionClient.extract_verse_text
    rw [h1]
  · intro t h1 h2
    unfold YouVersionClient.extract_verse_text
    rw [h1, h2]
  · intro t h1 h2 h3
    unfold YouVersionClient.extract_verse_text
    rw [h1, h2, h3]
  · intro h1 h2 h3
    unfold YouVersionClient.extract_verse_text
    rw [h1, h2, h3]
  · rintro s t (h | h | h)
    · exact extractStrategy1_ne_empty s verse_number t h
    · exact extractStrategy2_ne_empty s verse_number t h
    · exact extractStrategy3_ne_empty s verse_number t h

/-- Witness for `extract_verse_text_spec`: the concrete markup of the claim,
with verse 1 extracted through the first strategy and the absent verse 5
exhausting all three strategies. -/
theorem extract_verse_text_spec_witness :
    YouVersionClient.extract_verse_text (cdWith exampleMarkup) 1 = .ok "Hello" ∧
    YouVersionClient.extract_verse_text (cdWith exampleMarkup) 5
      = .error (.valueError "Verse 5 not found in chapter data") ∧
    "Hello" ≠ "" :=
  ⟨(extract_verse_text_spec (cdWith exampleMarkup) 1).1 "Hello" rfl,
   (extract_verse_text_spec (cdWith exampleMarkup) 5).2.2.2.1 rfl rfl rfl,
   (extract_verse_text_spec (cdWith exampleMarkup) 1).2.2.2.2.1
     (chapterContent (cdWith exampleMarkup)).toList "Hello" (Or.inl rfl)⟩

/-! ## Claim theorems for the VOTD cache and orchestration -/

theorem odGet_eq_none_iff (c : VotdCache) (k : ℤ) :
    odGet c k = none ↔ c.find? (fun e => decide (e.1 = k)) = none := by
  unfold odGet
  cases c.find? (fun e => decide (e.1 = k)) <;> simp

theorem find?_tail_eq_none (c : VotdCache) (k : ℤ)
    (h : c.find? (fun e => decide (e.1 = k)) = none) :
    c.tail.find? (fun e => decide (e.1 = k)) = none := by
  rw [List.find?_eq_none] at h ⊢
  intro x hx
  exact h x (List.mem_of_mem_tail hx)

theorem odGet_insert_self (c : VotdCache) (day : ℤ) (now : ℚ)
    (v : FormattedVerse) (h : odGet c day = none) :
    odGet (votdCacheInsert c day now v) day = some (now, v) := by
  rw [odGet_eq_none_iff] at h
  have htail : (if c.length ≥ cache_maxsize then odPopFront c else c).find?
      (fun e => decide (e.1 = day)) = none := by
    split
    · exact find?_tail_eq_none c day h
    · exact h
  unfold votdCacheInsert odSet
  rw [htail]
  simp only [Option.isSome_none, Bool.false_eq_true, if_false]
  unfold odGet
  rw [List.find?_append, htail]
  simp

theorem odMoveToEnd_length_le (c : VotdCache) (k : ℤ) :
    (odMoveToEnd c k).length ≤ c.length := by
  unfold odMoveToEnd
  split
  · next e hfind =>
    have hmem : e ∈ c := List.mem_of_find?_eq_some hfind
    have hpe : (fun x => decide (x.1 ≠ k)) e = false := by
      have := List.find?_some hfind
      simp at this ⊢
      exact this
    have hlt : (c.filter (fun x => decide (x.1 ≠ k))).length < c.length := by
      rcases Nat.lt_or_ge (c.filter (fun x => decide (x.1 ≠ k))).length c.length with h | h
      · exact h
      · exfalso
        have heq : (c.filter (fun x => decide (x.1 ≠ k))).length = c.length :=
          le_antisymm (List.length_filter_le _ _) h
        have hall := List.filter_length_eq_length.mp heq e hmem
        simp only at hpe
        rw [hpe] at hall
        cases hall
    simp only [List.length_append, List.length_singleton]
    omega
  · exact le_refl _

theorem odSet_length_le (c : VotdCache) (k : ℤ) (v : ℚ × FormattedVerse) :
    (odSet c k v).length ≤ c.length + 1 := by
  unfold odSet
  split
  · simp
  · simp

theorem votdCacheLookup_length_le (c : VotdCache) (day : ℤ) (now : ℚ) :
    (votdCacheLookup c day now).2.length ≤ c.length := by
  unfold votdCacheLookup
  split
  · split
    · exact odMoveToEnd_length_le c day
    · exact List.length_filter_le _ _
  · exact le_refl _

theorem votdCacheInsert_length_le (c : VotdCache) (day : ℤ) (now : ℚ)
    (v : FormattedVerse) (h : c.length ≤ cache_maxsize) :
    (votdCacheInsert c day now v).length ≤ cache_maxsize := by
  unfold votdCacheInsert
  have hset := odSet_length_le
    (if c.length ≥ cache_maxsize then odPopFront c else c) day (now, v)
  by_cases hfull : c.length ≥ cache_maxsize
  · have htail : (odPopFront c).length ≤ cache_maxsize - 1 := by
      unfold odPopFront
      simp only [List.length_tail]
      unfold cache_maxsize at h hfull ⊢
      omega
    rw [if_pos hfull] at hset ⊢
    unfold cache_maxsize at htail ⊢
    omega
  · rw [if_neg hfull] at hset ⊢
    unfold cache_maxsize at hfull ⊢
    omega

theorem votdCacheReachable_length_le (c : VotdCache) (h : VotdCacheReachable c) :
    c.length ≤ cache_maxsize := by
  induction h with
  | init => simp [cache_maxsize]
  | lookup c day now h ih =>
    exact le_trans (votdCacheLookup_length_le c day now) ih
  | insert c day now v h ih =>
    exact votdCacheInsert_length_le c day now v ih

theorem votdCacheLookup_hit (cache : VotdCache) (day : ℤ) (now ts : ℚ)
    (data : FormattedVerse)
    (hfind : cache.find? (fun e => decide (e.1 = day)) = some (day, ts, data))
    (hfresh : now - ts < cache_ttl) :
    votdCacheLookup cache day now = (some data, odMoveToEnd cache day) := by
  unfold votdCacheLookup odGet
  rw [hfind]
  show (if now - ts < cache_ttl then (some data, odMoveToEnd cache day)
    else (none, odDel cache day)) = _
  rw [if_pos hfresh]

theorem votdCacheLookup_expired (cache : VotdCache) (day : ℤ) (now ts : ℚ)
    (data : FormattedVerse)
    (hfind : cache.find? (fun e => decide (e.1 = day)) = some (day, ts, data))
    (hexp : ¬(now - ts < cache_ttl)) :
    votdCacheLookup cache day now = (none, odDel cache day) := by
  unfold votdCacheLookup odGet
  rw [hfind]
  show (if now - ts < cache_ttl then (some data, odMoveToEnd cache day)
    else (none, odDel cache day)) = _
  rw [if_neg hexp]

theorem odGet_odDel_self (cache : VotdCache) (day : ℤ) :
    odGet (odDel cache day) day = none := by
  rw [odGet_eq_none_iff]
  rw [List.find?_eq_none]
  intro x hx
  have := List.mem_filter.mp hx
  simp at this ⊢
  exact this.2

theorem votdCacheInsert_evicts (cache : VotdCache) (day k0 : ℤ)
    (e0 : ℚ × FormattedVerse) (rest : VotdCache) (now : ℚ) (v : FormattedVerse)
    (hcache : cache = (k0, e0) :: rest)
    (hlen : cache.length ≥ cache_maxsize)
    (hd : ∀ x ∈ rest, x.1 ≠ day) :
    votdCacheInsert cache day now v = rest ++ [(day, now, v)] := by
  subst hcache
  unfold votdCacheInsert
  rw [if_pos hlen]
  show odSet rest day (now, v) = rest ++ [(day, now, v)]
  unfold odSet
  have hfind : rest.find? (fun e => decide (e.1 = day)) = none := by
    rw [List.find?_eq_none]
    intro x hx
    simp only [decide_eq_true_eq]
    exact hd x hx
  rw [hfind]
  simp

/-- Claim C1: the VOTD cache holds at most `cache_maxsize` (100) entries in
every reachable state; a hit within the TTL makes
`get_formatted_verse_of_the_day` return the stored record with no network
fetch and moves the entry to the most-recent (last) position; an entry
whose age reaches the TTL is treated as a miss and deleted, and the
subsequent insert stores a fresh record under the same day (replaced, not
reused); and an insert into a cache at capacity evicts exactly the front
entry — the least-recently-inserted entry not subsequently re-accessed
(re-accessing moves an entry to the back) — keeping all others. -/
theorem votd_cache_spec :
    (∀ c, VotdCacheReachable c → c.length ≤ cache_maxsize) ∧
    (∀ (cache : VotdCache) (day : ℤ) (now ts : ℚ) (data : FormattedVerse)
        (env : FetchEnv),
      cache.find? (fun e => decide (e.1 = day)) = some (day, ts, data) →
      now - ts < cache_ttl →
      YouVersionClient.get_formatted_verse_of_the_day cache day now env
          = (.ok data, odMoveToEnd cache day, false) ∧
        (odMoveToEnd cache day).getLast? = some (day, ts, data)) ∧
    (∀ (cache : VotdCache) (day : ℤ) (now ts : ℚ) (data : FormattedVerse),
      cache.find? (fun e => decide (e.1 = day)) = some (day, ts, data) →
      ¬(now - ts < cache_ttl) →
      votdCacheLookup cache day now = (none, odDel cache day) ∧
        odGet (odDel cache day) day = none ∧
        ∀ (now2 : ℚ) (v : FormattedVerse),
          odGet (votdCacheInsert (odDel cache day) day now2 v) day
            = some (now2, v)) ∧
    (∀ (cache : VotdCache) (day k0 : ℤ) (e0 : ℚ × FormattedVerse)
        (rest : VotdCache) (now : ℚ) (v : FormattedVerse),
      cache = (k0, e0) :: rest →
      cache.length ≥ cache_maxsize →
      (∀ x ∈ rest, x.1 ≠ k0) → k0 ≠ day → (∀ x ∈ rest, x.1 ≠ day) →
      votdCacheInsert cache day now v = rest ++ [(day, now, v)] ∧
        odGet (votdCacheInsert cache day now v) k0 = none ∧
        odGet (votdCacheInsert cache day now v) day = some (now, v) ∧
        ∀ x ∈ rest, x ∈ votdCacheInsert cache day now v) := by
  refine ⟨votdCacheReachable_length_le, ?_, ?_, ?_⟩
  · intro cache day now ts data env hfind hfresh
    have hl := votdCacheLookup_hit cache day now ts data hfind hfresh
    constructor
    · unfold YouVersionClient.get_formatted_verse_of_the_day
      rw [hl]
    · unfold odMoveToEnd
      rw [hfind]
      exact List.getLast?_concat _
  · intro cache day now ts data hfind hexp
    refine ⟨votdCacheLookup_expired cache day now ts data hfind hexp,
      odGet_odDel_self cache day, ?_⟩
    intro now2 v
    exact odGet_insert_self _ day now2 v (odGet_odDel_self cache day)
  · intro cache day k0 e0 rest now v hcache hlen hk0 hkd hd
    have hins := votdCacheInsert_evicts cache day k0 e0 rest now v hcache hlen hd
    refine ⟨hins, ?_, ?_, ?_⟩
    · rw [hins, odGet_eq_none_iff, List.find?_eq_none]
      intro x hx
      rcases List.mem_append.mp hx with hx1 | hx2
      · simp only [decide_eq_true_eq]
        exact fun hcontra => hk0 x hx1 hcontra
      · simp only [List.mem_singleton] at hx2
        subst hx2
        simp only [decide_eq_true_eq]
        exact fun hcontra => hkd hcontra.symm
    · rw [hins]
      unfold odGet
      rw [List.find?_append]
      have hrest : rest.find? (fun e => decide (e.1 = day)) = none := by
        rw [List.find?_eq_none]
        intro x hx
        simp only [decide_eq_true_eq]
        exact hd x hx
      rw [hrest]
      simp
    · intro x hx
      rw [hins]
      exact List.mem_append_left _ hx

/-- Witness for `votd_cache_spec`: the size bound at a freshly populated
cache; a hit at age 10 s on day 1; an expired entry at age `cache_ttl`;
and an insert into the 100-entry `demoFullCache` evicting exactly the
front entry with key 0. -/
theorem votd_cache_spec_witness :
    (votdCacheInsert [] 1 0 demoVerse).length ≤ cache_maxsize ∧
    (YouVersionClient.get_formatted_verse_of_the_day [(1, 0, demoVerse)] 1 10 demoEnv
        = (.ok demoVerse, odMoveToEnd [(1, 0, demoVerse)] 1, false) ∧
      (odMoveToEnd [(1, 0, demoVerse)] 1).getLast? = some (1, 0, demoVerse)) ∧
    (votdCacheLookup [(1, 0, demoVerse)] 1 cache_ttl = (none, odDel [(1, 0, demoVerse)] 1) ∧
      odGet (odDel [(1, 0, demoVerse)] 1) 1 = none ∧
      odGet (votdCacheInsert (odDel [(1, 0, demoVerse)] 1) 1 cache_ttl demoVerse) 1
        = some (cache_ttl, demoVerse)) ∧
    (votdCacheInsert demoFullCache 200 5 demoVerse
        = demoFullCacheRest ++ [(200, 5, demoVerse)] ∧
      odGet (votdCacheInsert demoFullCache 200 5 demoVerse) 0 = none ∧
      odGet (votdCacheInsert demoFullCache 200 5 demoVerse) 200 = some (5, demoVerse) ∧
      ∀ x ∈ demoFullCacheRest, x ∈ votdCacheInsert demoFullCache 200 5 demoVerse) := by
  refine ⟨?_, ?_, ?_, ?_⟩
  · exact votd_cache_spec.1 (votdCacheInsert [] 1 0 demoVerse)
      (VotdCacheReachable.insert [] 1 0 demoVerse VotdCacheReachable.init)
  · exact votd_cache_spec.2.1 [(1, 0, demoVerse)] 1 10 0 demoVerse demoEnv rfl
      (by norm_num [cache_ttl])
  · have h := votd_cache_spec.2.2.1 [(1, 0, demoVerse)] 1 cache_ttl 0 demoVerse rfl
      (by norm_num)
    exact ⟨h.1, h.2.1, h.2.2 cache_ttl demoVerse⟩
  · exact votd_cache_spec.2.2.2 demoFullCache 200 0 (0, demoVerse)
      demoFullCacheRest 5 demoVerse (by decide) (by decide) (by decide)
      (by decide) (by decide)

theorem gvotd_ok_fallback (day : ℤ) (r : VotdResponse) (v0 : VotdEntry)
    (rest : List VotdEntry) (h200 : r.status_code = 200)
    (hfind : r.votd.find? (fun x => decide (x.day = some day)) = none)
    (hvotd : r.votd = v0 :: rest) :
    YouVersionClient.get_verse_of_the_day day (.ok r) = .ok v0 := by
  rw [hvotd] at hfind
  simp [YouVersionClient.get_verse_of_the_day, h200, hfind, hvotd]

theorem get_formatted_miss_eq (cache : VotdCache) (day : ℤ) (now : ℚ)
    (env : FetchEnv) (c1 : VotdCache) (v0 : VotdEntry)
    (hlk : votdCacheLookup cache day now = (none, c1))
    (hsel : YouVersionClient.get_verse_of_the_day day env.votdResp = .ok v0) :
    YouVersionClient.get_formatted_verse_of_the_day cache day now env
      = (match v0.usfm with
        | [] =>
          (.error (.valueError "No USFM reference found in VOTD data"), c1, true)
        | usfm_ref :: restRefs =>
          match
            ((match YouVersionClient.get_verse_texts
                (YouVersionClient.get_verse_text env.chapterNet)
                (usfm_ref :: restRefs) with
             | .ok (chapter_data :: _) => .ok chapter_data
             | .ok [] => .error (.indexError "list index out of range")
             | .error _ =>
               YouVersionClient.get_verse_text env.chapterNet usfm_ref) :
              Except PyError ChapterData)
          with
          | .error e => (.error e, c1, true)
          | .ok chapter_data =>
            match YouVersionClient.extract_verse_text chapter_data
                (YouVersionClient.extract_verse_number usfm_ref) with
            | .error e => (.error e, c1, true)
            | .ok verse_text =>
              (.ok { day := v0.day, usfm := usfm_ref,
                     human_reference := YouVersionClient.usfm_to_human usfm_ref,
                     verse_text := verse_text, version_id := 1,
                     image_id := v0.image_id },
               votdCacheInsert c1 day now
                 { day := v0.day, usfm := usfm_ref,
                   human_reference := YouVersionClient.usfm_to_human usfm_ref,
                   verse_text := verse_text, version_id := 1,
                   image_id := v0.image_id },
               true)) := by
  unfold YouVersionClient.get_formatted_verse_of_the_day
  rw [hlk, hsel]

/-- Claim C10: on a cache-missing call with the first-entry fallback firing
(the 200 envelope has entries but none matching the requested day), the
`day` field of the returned `FormattedVerse` is taken from the selected
envelope entry rather than from the requested day, while the record is
cached under the requested day; hence the returned and cached record
carries a `day` field different from the requested day, which is its own
cache key. -/
theorem formatted_votd_day_field (cache : VotdCache) (day : ℤ) (now : ℚ)
    (env : FetchEnv) (r : VotdResponse) (v0 : VotdEntry) (rest : List VotdEntry)
    (fv : FormattedVerse) (c2 : VotdCache) (used : Bool)
    (hmiss : (votdCacheLookup cache day now).1 = none)
    (hresp : env.votdResp = .ok r)
    (h200 : r.status_code = 200)
    (hfind : r.votd.find? (fun x => decide (x.day = some day)) = none)
    (hvotd : r.votd = v0 :: rest)
    (hout : YouVersionClient.get_formatted_verse_of_the_day cache day now env
      = (.ok fv, c2, used)) :
    fv.day = v0.day ∧ v0.day ≠ some day ∧ fv.day ≠ some day ∧
    c2 = votdCacheInsert (votdCacheLookup cache day now).2 day now fv ∧
    odGet c2 day = some (now, fv) ∧ used = true := by
  have hsel : YouVersionClient.get_verse_of_the_day day env.votdResp = .ok v0 := by
    rw [hresp]
    exact gvotd_ok_fallback day r v0 rest h200 hfind hvotd
  have hv0day : v0.day ≠ some day := by
    have hmem : v0 ∈ r.votd := by rw [hvotd]; exact List.mem_cons_self _ _
    have h2 := List.find?_eq_none.mp hfind v0 hmem
    simpa using h2
  have hmget : odGet (votdCacheLookup cache day now).2 day = none := by
    unfold votdCacheLookup at hmiss ⊢
    rcases hg : odGet cache day with _ | ⟨ts, data⟩
    · exact hg
    · by_cases hfresh : now - ts < cache_ttl
      · exfalso
        rw [hg] at hmiss
        have hmiss2 : (if now - ts < cache_ttl then (some data, odMoveToEnd cache day)
            else (none, odDel cache day)).1 = none := hmiss
        rw [if_pos hfresh] at hmiss2
        simp at hmiss2
      · show odGet (if now - ts < cache_ttl then (some data, odMoveToEnd cache day)
          else (none, odDel cache day)).2 day = none
        rw [if_neg hfresh]
        exact odGet_odDel_self cache day
  rcases hlk : votdCacheLookup cache day now with ⟨o, c1⟩
  have ho : o = none := by
    have := hmiss
    rw [hlk] at this
    exact this
  subst ho
  rw [hlk] at hmget
  rw [get_formatted_miss_eq cache day now env c1 v0 hlk hsel] at hout
  rcases husfm : v0.usfm with _ | ⟨u, us⟩ <;> rw [husfm] at hout
  · simp at hout
  · split at hout
    · simp at hout
    · split at hout
      · simp at hout
      · split at hout
        · simp at hout
        · rw [Prod.mk.injEq, Prod.mk.injEq, Except.ok.injEq] at hout
          obtain ⟨h1, h2, h3⟩ := hout
          subst h1
          refine ⟨rfl, hv0day, hv0day, ?_, ?_, h3.symm⟩
          · exact h2.symm
          · rw [← h2]
            exact odGet_insert_self c1 day now _ hmget

/-- Witness for `formatted_votd_day_field`: requesting day 1 against an
envelope whose only entry is for day 2 — the fallback fires, the returned
record carries day 2, and it is cached under key 1. -/
theorem formatted_votd_day_field_witness :
    (FormattedVerse.day ⟨some 2, "GEN.1.1", "Genesis 1:1", "Hello", 1, some "img"⟩
        = VotdEntry.day ⟨some 2, ["GEN.1.1"], some "img"⟩) ∧
    VotdEntry.day ⟨some 2, ["GEN.1.1"], some "img"⟩ ≠ some 1 ∧
    FormattedVerse.day ⟨some 2, "GEN.1.1", "Genesis 1:1", "Hello", 1, some "img"⟩
        ≠ some 1 ∧
    [((1 : ℤ), (0 : ℚ), (⟨some 2, "GEN.1.1", "Genesis 1:1", "Hello", 1, some "img"⟩ : FormattedVerse))]
        = votdCacheInsert (votdCacheLookup [] 1 0).2 1 0
            ⟨some 2, "GEN.1.1", "Genesis 1:1", "Hello", 1, some "img"⟩ ∧
    odGet [((1 : ℤ), (0 : ℚ), (⟨some 2, "GEN.1.1", "Genesis 1:1", "Hello", 1, some "img"⟩ : FormattedVerse))] 1
        = some (0, ⟨some 2, "GEN.1.1", "Genesis 1:1", "Hello", 1, some "img"⟩) ∧
    true = true :=
  formatted_votd_day_field [] 1 0 demoEnv ⟨200, [⟨some 2, ["GEN.1.1"], some "img"⟩]⟩
    ⟨some 2, ["GEN.1.1"], some "img"⟩ []
    ⟨some 2, "GEN.1.1", "Genesis 1:1", "Hello", 1, some "img"⟩
    [((1 : ℤ), (0 : ℚ), (⟨some 2, "GEN.1.1", "Genesis 1:1", "Hello", 1, some "img"⟩ : FormattedVerse))]
    true rfl rfl rfl rfl rfl rfl
